import Mathlib

/-!
Replay log reader: record demultiplexer and message-id remapping

A shallow embedding of `Tools/Replay/LogReader.cpp`.

* C strings (`const char *`) are embedded as `String`: the characters before the
  terminating NUL.  `strcmp(a, b) == 0` is equality of these strings.
* `uint8_t` values are natural numbers; the only arithmetic the file performs on
  them is `next_msgid++`, embedded as `(n + 1) % 256`.
* Arrays indexed by a `uint8_t` are functions `Nat → α`; a store is
  `Function.update`.
* Calls the reader issues to its collaborators (`dataflash.WriteBlock`,
  `hal.scheduler->stop_clock`, `p->process_message`, `printf`) are appended, in
  program order, to the `trace` field of the state.
* `exit(1)` is the `Except.error` result of `handle_msg`.
* The handlers (MsgHandler.h) are outside the file.  Constructing one is taken to have
  no effect on the reader; running one (`process_message`) may change the members it
  holds a reference to, and reads the message buffer.  What a handler itself sends to
  the sink or the scheduler is not part of the trace.
* A message buffer is a list of bytes; the caller provides at least the three header
  bytes, so `msg[2]` is read with default 0 and written in place.
-/

namespace Replay

/-- The vehicle classes of `VehicleType::vehicle_type`, as named in the `switch`
of `maybe_install_vehicle_specific_parsers`. -/
inductive VehicleType where
  | VEHICLE_UNKNOWN
  | VEHICLE_COPTER
  | VEHICLE_PLANE
  | VEHICLE_ROVER
deriving DecidableEq

/-- Modelled from the spec: `struct log_Format` is declared in DataFlash.h, which is
not part of the sources.  The spec's Schema is
`{ type_id: u8, name: fixed 4-byte identifier, length, field_layout: opaque }`.
`name` holds the raw `char name[4]` (not necessarily NUL terminated; a list shorter
than four characters stands for a name padded with NUL). -/
structure log_Format where
  type : Nat
  length : Nat
  name : List Char
  field_layout : List Nat
deriving DecidableEq

/-- Modelled from the spec: `struct LogStructure` is declared in DataFlash.h.  Only the
two members read by `map_fmt_type` are kept: the numeric id and the name. -/
structure LogStructure where
  msg_type : Nat
  name : String
deriving DecidableEq

/-- The `LR_MsgHandler` subclasses constructed in LogReader.cpp. -/
inductive HandlerClass where
  | PARM | GPS | GPS2 | MSG | IMU | IMU2 | IMU3 | IMT | IMT2 | IMT3 | SIM | BARO
  | ARM | Event | AHR2 | ATT | MAG | MAG2 | ARSP | FRAM | CHEK | NTUN_Copter
deriving DecidableEq

/-- A constructed handler object: its class, the `log_Format` passed to its
constructor, and the identity of the object (`new` returns a fresh one each time). -/
structure LR_MsgHandler where
  cls : HandlerClass
  f : log_Format
  addr : Nat
deriving DecidableEq

/-- What `dataflash.WriteBlock(ptr, size)` is given: a `log_Format` struct, or the
first `size` bytes of a message buffer. -/
inductive Block where
  | format (f : log_Format)
  | raw (bytes : List Nat)
deriving DecidableEq

/-- The calls LogReader.cpp issues to its collaborators. -/
inductive Event where
  | WriteBlock (b : Block)
  | stop_clock (time_usec : Nat)
  | process_message (p : LR_MsgHandler) (msg : List Nat)
  | printf (fmt : String) (args : List Nat)
deriving DecidableEq

/-- What LogReader.cpp uses but does not define.
`LOGREADER_MAX_FORMATS` is a macro of the header.  `process_message` is the virtual
method of the handlers (MsgHandler.h): a handler holds references to
`last_timestamp_usec` and (the MSG handler) to `vehicle`, so its effect on the reader
is a new value for that pair; it reads the message.  `set_parameter` is the method
of `LR_MsgHandler_PARM`; the `float` value is kept abstract as an integer code. -/
structure Externals where
  LOGREADER_MAX_FORMATS : Nat
  process_message : LR_MsgHandler → List Nat → Nat × VehicleType → Nat × VehicleType
  set_parameter : LR_MsgHandler → String → Int → Bool

/-- The members of `LogReader` (and the two file-level globals `deferred_formats` and
`parameter_handler`) that LogReader.cpp reads or writes, the trace of the calls it
issued, and the allocation counter `heap` that names the next object `new` returns.
`structure_` with its length stands for the pair `structure`, `num_types`. -/
structure LogReader where
  vehicle : VehicleType
  structure_ : List LogStructure
  last_timestamp_usec : Nat
  installed_vehicle_specific_parsers : Bool
  msgparser : Nat → Option LR_MsgHandler
  mapped_msgid : Nat → Nat
  next_msgid : Nat
  formats : Nat → log_Format
  deferred_formats : Nat → log_Format
  parameter_handler : Option LR_MsgHandler
  trace : List Event
  heap : Nat

/-- The value of `num_types`. -/
def LogReader.num_types (s : LogReader) : Nat := s.structure_.length

/-- A zero-filled `log_Format` (static storage). -/
def log_Format.zero : log_Format := ⟨0, 0, [], []⟩

/-- The state after the constructor.  The constructor sets `vehicle`, `structure`,
`num_types`, `last_timestamp_usec` and `installed_vehicle_specific_parsers`; the
globals are zero-initialised.
Modelled from the spec: the initial contents of `mapped_msgid` (every entry unset),
`msgparser` (no binding) and `next_msgid` (a counter whose start value is given in
the header) are set in LogReader.h; the start value is the parameter `first_msgid`. -/
def LogReader.init (structure_ : List LogStructure) (first_msgid : Nat) : LogReader where
  vehicle := VehicleType.VEHICLE_UNKNOWN
  structure_ := structure_
  last_timestamp_usec := 0
  installed_vehicle_specific_parsers := false
  msgparser := fun _ => none
  mapped_msgid := fun _ => 0
  next_msgid := first_msgid
  formats := fun _ => log_Format.zero
  deferred_formats := fun _ => log_Format.zero
  parameter_handler := none
  trace := []
  heap := 0

/-- The loop of `maybe_install_vehicle_specific_parsers`, one iteration for `i`. -/
def install_copter_at (s : LogReader) (i : Nat) : LogReader :=
  if (s.deferred_formats i).type ≠ 0 then
    { s with
      msgparser := Function.update s.msgparser i
        (some ⟨HandlerClass.NTUN_Copter, s.deferred_formats i, s.heap⟩)
      heap := s.heap + 1 }
  else s

/-- The function `LogReader::maybe_install_vehicle_specific_parsers`.  The `for` loop runs
`i` over `0 .. LOGREADER_MAX_FORMATS - 1`. -/
def maybe_install_vehicle_specific_parsers (E : Externals) (s : LogReader) : LogReader :=
  if s.installed_vehicle_specific_parsers = false ∧
      s.vehicle ≠ VehicleType.VEHICLE_UNKNOWN then
    let s1 :=
      match s.vehicle with
      | VehicleType.VEHICLE_COPTER =>
        (List.range E.LOGREADER_MAX_FORMATS).foldl install_copter_at s
      | VehicleType.VEHICLE_PLANE => s
      | VehicleType.VEHICLE_ROVER => s
      | VehicleType.VEHICLE_UNKNOWN => s
    { s1 with installed_vehicle_specific_parsers := true }
  else s

/-- The list `generated_names`: messages replay generates itself. -/
def generated_names : List String :=
  ["EKF1", "EKF2", "EKF3", "EKF4", "EKF5", "AHR2", "POS"]

/-- The function `LogReader::in_list`: is `type` one of the strings of `list`? -/
def in_list (type : String) : List String → Bool
  | [] => false
  | x :: rest => if type = x then true else in_list type rest

/-- The search loop of `map_fmt_type`: the `msg_type` of the first entry of the
structure list whose name is `name`. -/
def find_structure (name : String) : List LogStructure → Option Nat
  | [] => none
  | e :: rest => if name = e.name then some e.msg_type else find_structure name rest

/-- The function `LogReader::map_fmt_type`: the returned id and the new state. -/
def map_fmt_type (name : String) (intype : Nat) (s : LogReader) : Nat × LogReader :=
  if s.mapped_msgid intype ≠ 0 then
    (s.mapped_msgid intype, s)
  else
    match find_structure name s.structure_ with
    | some t =>
      (t, { s with mapped_msgid := Function.update s.mapped_msgid intype t })
    | none =>
      (s.next_msgid,
        { s with
          mapped_msgid := Function.update s.mapped_msgid intype s.next_msgid
          next_msgid := (s.next_msgid + 1) % 256 })

/-- The local `name` of `handle_log_format_msg` and `handle_msg`: five NUL bytes
overwritten by the four bytes of `f.name`, read as a C string. -/
def fmt_name (f : log_Format) : String :=
  String.mk ((f.name.take 4).takeWhile (fun c => c.toNat ≠ 0))

/-- The branch of the name dispatch of `handle_log_format_msg` that a name takes. -/
inductive Dispatch where
  | parm
  | parser (cls : HandlerClass)
  | deferred
  | unhandled
deriving DecidableEq

/-- The `if (streq(name, ...)) ... else if ...` chain of `handle_log_format_msg`, in
source order. -/
def dispatch (name : String) : Dispatch :=
  if name = "PARM" then Dispatch.parm
  else if name = "GPS" then Dispatch.parser HandlerClass.GPS
  else if name = "GPS2" then Dispatch.parser HandlerClass.GPS2
  else if name = "MSG" then Dispatch.parser HandlerClass.MSG
  else if name = "IMU" then Dispatch.parser HandlerClass.IMU
  else if name = "IMU2" then Dispatch.parser HandlerClass.IMU2
  else if name = "IMU3" then Dispatch.parser HandlerClass.IMU3
  else if name = "IMT" then Dispatch.parser HandlerClass.IMT
  else if name = "IMT2" then Dispatch.parser HandlerClass.IMT2
  else if name = "IMT3" then Dispatch.parser HandlerClass.IMT3
  else if name = "SIM" then Dispatch.parser HandlerClass.SIM
  else if name = "BARO" then Dispatch.parser HandlerClass.BARO
  else if name = "ARM" then Dispatch.parser HandlerClass.ARM
  else if name = "EV" then Dispatch.parser HandlerClass.Event
  else if name = "AHR2" then Dispatch.parser HandlerClass.AHR2
  else if name = "ATT" then Dispatch.parser HandlerClass.ATT
  else if name = "MAG" then Dispatch.parser HandlerClass.MAG
  else if name = "MAG2" then Dispatch.parser HandlerClass.MAG2
  else if name = "NTUN" then Dispatch.deferred
  else if name = "ARSP" then Dispatch.parser HandlerClass.ARSP
  else if name = "FRAM" then Dispatch.parser HandlerClass.FRAM
  else if name = "CHEK" then Dispatch.parser HandlerClass.CHEK
  else Dispatch.unhandled

/-- The first part of `handle_log_format_msg`: unless the name is generated, write the
format header with its type remapped. -/
def forward_format (f : log_Format) (s : LogReader) : LogReader :=
  if in_list (fmt_name f) generated_names = false then
    let r := map_fmt_type (fmt_name f) f.type s
    { r.2 with trace := r.2.trace ++ [Event.WriteBlock (Block.format { f with type := r.1 })] }
  else s

/-- The second part of `handle_log_format_msg`: the effect of the branch taken.  Every
`new LR_MsgHandler_X(formats[f.type], ...)` builds the handler from the registered
format `formats[f.type]`. -/
def install_by_name (f : log_Format) (s : LogReader) : LogReader :=
  match dispatch (fmt_name f) with
  | Dispatch.parm =>
    { s with
      parameter_handler := some ⟨HandlerClass.PARM, s.formats f.type, s.heap⟩
      msgparser := Function.update s.msgparser f.type
        (some ⟨HandlerClass.PARM, s.formats f.type, s.heap⟩)
      heap := s.heap + 1 }
  | Dispatch.parser cls =>
    { s with
      msgparser := Function.update s.msgparser f.type (some ⟨cls, s.formats f.type, s.heap⟩)
      heap := s.heap + 1 }
  | Dispatch.deferred =>
    { s with
      deferred_formats := Function.update s.deferred_formats f.type (s.formats f.type) }
  | Dispatch.unhandled => s

/-- The function `LogReader::handle_log_format_msg`: the returned flag and the new
state. -/
def handle_log_format_msg (f : log_Format) (s : LogReader) : Bool × LogReader :=
  (true, install_by_name f (forward_format f s))

/-- The process state when `exit` is called: the exit status, the message buffer and
the reader. -/
structure Halt where
  status : Nat
  msg : List Nat
  s : LogReader

/-- The byte `msg[2]`. -/
def msg_type_byte (msg : List Nat) : Nat := msg.getD 2 0

/-- The first part of `handle_msg`: unless the name is generated, exit when the type
byte has no mapping, else rewrite the byte, write the message and stop the clock.
Returns the message buffer and the reader. -/
def forward_msg (f : log_Format) (msg : List Nat) (s : LogReader) :
    Except Halt (List Nat × LogReader) :=
  if in_list (fmt_name f) generated_names = false then
    if s.mapped_msgid (msg_type_byte msg) = 0 then
      Except.error
        { status := 1
          msg := msg
          s := { s with
            trace := s.trace ++ [Event.printf "Unknown msgid %u\n" [msg_type_byte msg]] } }
    else
      let msg1 := msg.set 2 (s.mapped_msgid (msg_type_byte msg))
      Except.ok (msg1,
        { s with
          trace := s.trace ++
            [Event.WriteBlock (Block.raw (msg1.take f.length)),
             Event.stop_clock s.last_timestamp_usec] })
  else Except.ok (msg, s)

/-- The second part of `handle_msg`: look the parser up under `f.type`, run it on the
message, then try to install the vehicle specific parsers. -/
def process_msg (E : Externals) (f : log_Format) (msg : List Nat) (s : LogReader) :
    LogReader :=
  match s.msgparser f.type with
  | none => s
  | some p =>
    let r := E.process_message p msg (s.last_timestamp_usec, s.vehicle)
    maybe_install_vehicle_specific_parsers E
      { s with
        last_timestamp_usec := r.1
        vehicle := r.2
        trace := s.trace ++ [Event.process_message p msg] }

/-- The function `LogReader::handle_msg`: `Except.error` when the process exits,
else the returned flag, the message buffer and the new state. -/
def handle_msg (E : Externals) (f : log_Format) (msg : List Nat) (s : LogReader) :
    Except Halt (Bool × List Nat × LogReader) :=
  match forward_msg f msg s with
  | Except.error h => Except.error h
  | Except.ok r => Except.ok (true, r.1, process_msg E f r.1 r.2)

/-- The function `LogReader::set_parameter`: the returned flag and the new state. -/
def set_parameter (E : Externals) (name : String) (value : Int) (s : LogReader) :
    Bool × LogReader :=
  match s.parameter_handler with
  | none =>
    (false, { s with trace := s.trace ++ [Event.printf "No parameter format message found" []] })
  | some p => (E.set_parameter p name value, s)

/-- The blocks given to `dataflash.WriteBlock`, in order. -/
def sink_writes (tr : List Event) : List Block :=
  tr.filterMap fun e => match e with
    | Event.WriteBlock b => some b
    | _ => none

/-- The times given to `hal.scheduler->stop_clock`, in order. -/
def clock_stops (tr : List Event) : List Nat :=
  tr.filterMap fun e => match e with
    | Event.stop_clock t => some t
    | _ => none

/-- The handler invocations `p->process_message(msg)`, in order. -/
def parser_calls (tr : List Event) : List (LR_MsgHandler × List Nat) :=
  tr.filterMap fun e => match e with
    | Event.process_message p m => some (p, m)
    | _ => none

/-- One operation of a session on the reader. -/
inductive Op where
  | map (name : String) (intype : Nat)
  | format (f : log_Format)
  | data (f : log_Format) (m : List Nat)
  | install

/-- The state an operation leaves: the state on return, or the state in which the
process exited. -/
def Op.apply (E : Externals) : Op → LogReader → Except Halt LogReader
  | Op.map name intype, s => Except.ok (map_fmt_type name intype s).2
  | Op.format f, s => Except.ok (handle_log_format_msg f s).2
  | Op.data f m, s =>
    match handle_msg E f m s with
    | Except.error h => Except.error h
    | Except.ok r => Except.ok r.2.2
  | Op.install, s => Except.ok (maybe_install_vehicle_specific_parsers E s)

/-- The state after a sequence of operations; the sequence ends early when the process
exits. -/
def run (E : Externals) : List Op → LogReader → LogReader
  | [], s => s
  | op :: rest, s =>
    match Op.apply E op s with
    | Except.error h => h.s
    | Except.ok s1 => run E rest s1


/-- One answered call `map_fmt_type(name, intype)`: the arguments and the id returned. -/
structure Remapped where
  name : String
  intype : Nat
  outtype : Nat
deriving DecidableEq

/-- A sequence of calls `map_fmt_type(name, intype)`, each on the state the previous
one left: the answered calls, in order. -/
def map_calls : List (String × Nat) → LogReader → List Remapped
  | [], _ => []
  | c :: rest, s =>
    ⟨c.1, c.2, (map_fmt_type c.1 c.2 s).1⟩ :: map_calls rest (map_fmt_type c.1 c.2 s).2

/-- A sequence of Format records, each handled by `handle_log_format_msg` on the state
the previous one left: the final state. -/
def format_session : List log_Format → LogReader → LogReader
  | [], s => s
  | f :: rest, s => format_session rest (handle_log_format_msg f s).2

/-- The format headers written to the sink, in order. -/
def forwarded_formats (tr : List Event) : List log_Format :=
  tr.filterMap fun e => match e with
    | Event.WriteBlock (Block.format g) => some g
    | _ => none

/-- The collision freedom of answered calls: two calls with different incoming ids and
different names were not given the same outgoing id. -/
def CallsCollisionFree (r : List Remapped) : Prop :=
  ∀ x ∈ r, ∀ y ∈ r, x.intype ≠ y.intype → x.name ≠ y.name → x.outtype ≠ y.outtype

/-- The collision freedom of forwarded format headers: two headers with different names
do not carry the same (outgoing) type. -/
def FormatsCollisionFree (l : List log_Format) : Prop :=
  ∀ g1 ∈ l, ∀ g2 ∈ l, fmt_name g1 ≠ fmt_name g2 → g1.type ≠ g2.type

/-- The invariant of the remapper over a session that started with the structure list
`cat` and the counter at `n0`, after the answered calls `hist`, `a` of which allocated
a new id (the counter has not wrapped as long as `n0 + a` is below 256). -/
structure RemapInv (cat : List LogStructure) (n0 a : Nat) (hist : List Remapped)
    (s : LogReader) : Prop where
  cat_eq : s.structure_ = cat
  next_eq : n0 + a < 256 → s.next_msgid = n0 + a
  from_hist : ∀ id, s.mapped_msgid id ≠ 0 → ∃ name, ⟨name, id, s.mapped_msgid id⟩ ∈ hist
  origin : ∀ x ∈ hist, find_structure x.name cat = some x.outtype ∨
    (find_structure x.name cat = none ∧ n0 ≤ x.outtype ∧ x.outtype < n0 + a)
  distinct : ∀ x ∈ hist, ∀ y ∈ hist, x.name ≠ y.name → x.outtype ≠ y.outtype

/-- A sequence of calls `map_fmt_type(name, intype)`: the final state. -/
def map_calls_end : List (String × Nat) → LogReader → LogReader
  | [], s => s
  | c :: rest, s => map_calls_end rest (map_fmt_type c.1 c.2 s).2


/-- Does the call `map_fmt_type(name, intype)` allocate a new id in the state `s`?  It
does when the incoming id has no mapping and no entry of the structure list has the
name: the call then takes `next_msgid++`. -/
def allocates (name : String) (intype : Nat) (s : LogReader) : Bool :=
  decide (s.mapped_msgid intype = 0) && (find_structure name s.structure_).isNone

/-- The number of ids a sequence of calls `map_fmt_type(name, intype)` allocates. -/
def map_calls_allocations : List (String × Nat) → LogReader → Nat
  | [], _ => 0
  | c :: rest, s =>
    (if allocates c.1 c.2 s then 1 else 0) +
      map_calls_allocations rest (map_fmt_type c.1 c.2 s).2

/-- The number of ids a sequence of Format records allocates: a record of a generated
name does not reach `map_fmt_type`. -/
def format_session_allocations : List log_Format → LogReader → Nat
  | [], _ => 0
  | f :: rest, s =>
    (if in_list (fmt_name f) generated_names = false ∧
        allocates (fmt_name f) f.type s = true then 1 else 0) +
      format_session_allocations rest (handle_log_format_msg f s).2

/-- One step of a session: the upstream reader stores a format in its table
`formats` (the table is a member of the base class; the reader that fills it is not
part of LogReader.cpp, so any store is allowed), or one of the operations of `Op`. -/
inductive Step where
  | register (i : Nat) (g : log_Format)
  | op (o : Op)

/-- The state a step leaves, or the exit of the process. -/
def Step.apply (E : Externals) : Step → LogReader → Except Halt LogReader
  | Step.register i g, s => Except.ok { s with formats := Function.update s.formats i g }
  | Step.op o, s => Op.apply E o s

/-- The state after a session; the session ends early when the process exits. -/
def session (E : Externals) : List Step → LogReader → LogReader
  | [], s => s
  | st :: rest, s =>
    match Step.apply E st s with
    | Except.error h => h.s
    | Except.ok s1 => session E rest s1

/-- Does the branch construct a handler and store it in `msgparser[f.type]`? -/
def Dispatch.binds : Dispatch → Bool
  | Dispatch.parm => true
  | Dispatch.parser _ => true
  | Dispatch.deferred => false
  | Dispatch.unhandled => false

/-- Was an existing binding replaced by a different handler instance? -/
def replaced (old new : Option LR_MsgHandler) : Bool :=
  old.isSome && decide (new ≠ old)

/-- The steps of a session that replaced the handler bound to the type id `t`, in
order. -/
def replacing_steps (E : Externals) (t : Nat) : List Step → LogReader → List Step
  | [], _ => []
  | st :: rest, s =>
    match Step.apply E st s with
    | Except.error _ => []
    | Except.ok s1 =>
      (if replaced (s.msgparser t) (s1.msgparser t) then [st] else []) ++
        replacing_steps E t rest s1

/-- Is the step a call of `handle_log_format_msg`? -/
def Step.is_format : Step → Bool
  | Step.op (Op.format _) => true
  | _ => false

/-- The names the dispatch of `handle_log_format_msg` compares with, "NTUN" apart. -/
def handled_names : List String :=
  ["PARM", "GPS", "GPS2", "MSG", "IMU", "IMU2", "IMU3", "IMT", "IMT2", "IMT3", "SIM",
   "BARO", "ARM", "EV", "AHR2", "ATT", "MAG", "MAG2", "ARSP", "FRAM", "CHEK"]

/-- Externals for the examples: 255 formats, a MSG handler that reports a copter and
leaves the timestamp alone, other handlers that change nothing, a parameter handler
that accepts the names starting with a capital letter. -/
def copter_externals : Externals where
  LOGREADER_MAX_FORMATS := 255
  process_message := fun p _ x =>
    if p.cls = HandlerClass.MSG then (x.1, VehicleType.VEHICLE_COPTER) else x
  set_parameter := fun _ name _ => (name.get 0).isUpper


/-! ## Auxiliary facts -/

theorem in_list_iff (t : String) (l : List String) : in_list t l = true ↔ t ∈ l := by
  induction l with
  | nil => simp [in_list]
  | cons x rest ih =>
    by_cases h : t = x
    · simp [in_list, h]
    · simp [in_list, h, ih]

theorem in_list_false_iff (t : String) (l : List String) : in_list t l = false ↔ t ∉ l := by
  rw [← in_list_iff]; cases in_list t l <;> simp

theorem find_structure_eq_find (name : String) (l : List LogStructure) :
    find_structure name l =
      (l.find? (fun e => decide (e.name = name))).map (fun e => e.msg_type) := by
  induction l with
  | nil => simp [find_structure]
  | cons e rest ih =>
    by_cases h : name = e.name
    · simp [find_structure, h]
    · have h2 : ¬ e.name = name := fun h3 => h h3.symm
      simp [find_structure, h, h2, ih, List.find?_cons]

theorem find_structure_none_iff (name : String) (l : List LogStructure) :
    find_structure name l = none ↔ ∀ e ∈ l, e.name ≠ name := by
  rw [find_structure_eq_find]; simp

/-- The copter loop leaves everything but `msgparser` and `heap` alone. -/
theorem foldl_install_copter_at_frame (l : List Nat) (s : LogReader) :
    (l.foldl install_copter_at s).trace = s.trace ∧
    (l.foldl install_copter_at s).mapped_msgid = s.mapped_msgid ∧
    (l.foldl install_copter_at s).next_msgid = s.next_msgid ∧
    (l.foldl install_copter_at s).structure_ = s.structure_ ∧
    (l.foldl install_copter_at s).deferred_formats = s.deferred_formats ∧
    (l.foldl install_copter_at s).parameter_handler = s.parameter_handler ∧
    (l.foldl install_copter_at s).formats = s.formats ∧
    (l.foldl install_copter_at s).vehicle = s.vehicle ∧
    (l.foldl install_copter_at s).last_timestamp_usec = s.last_timestamp_usec := by
  induction l generalizing s with
  | nil => simp
  | cons i rest ih =>
    simp only [List.foldl_cons]
    have h := ih (install_copter_at s i)
    by_cases hz : (s.deferred_formats i).type = 0
    · simpa [install_copter_at, hz] using h
    · simpa [install_copter_at, hz] using h

/-- The installer leaves the trace, the id map, the counter, the structure list, the
deferred table, the parameter handler and the registered formats alone. -/
theorem maybe_install_frame (E : Externals) (s : LogReader) :
    (maybe_install_vehicle_specific_parsers E s).trace = s.trace ∧
    (maybe_install_vehicle_specific_parsers E s).mapped_msgid = s.mapped_msgid ∧
    (maybe_install_vehicle_specific_parsers E s).next_msgid = s.next_msgid ∧
    (maybe_install_vehicle_specific_parsers E s).structure_ = s.structure_ ∧
    (maybe_install_vehicle_specific_parsers E s).deferred_formats = s.deferred_formats ∧
    (maybe_install_vehicle_specific_parsers E s).parameter_handler = s.parameter_handler ∧
    (maybe_install_vehicle_specific_parsers E s).formats = s.formats ∧
    (maybe_install_vehicle_specific_parsers E s).vehicle = s.vehicle ∧
    (maybe_install_vehicle_specific_parsers E s).last_timestamp_usec =
      s.last_timestamp_usec := by
  unfold maybe_install_vehicle_specific_parsers
  by_cases h : s.installed_vehicle_specific_parsers = false ∧
      s.vehicle ≠ VehicleType.VEHICLE_UNKNOWN
  · rw [if_pos h]
    have hf := foldl_install_copter_at_frame (List.range E.LOGREADER_MAX_FORMATS) s
    split <;> simp [hf]
  · rw [if_neg h]; simp

/-- The handler step of `handle_msg` leaves the id map, the counter and the structure
list alone, and adds at most a `process_message` call to the trace. -/
theorem process_msg_frame (E : Externals) (f : log_Format) (msg : List Nat) (s : LogReader) :
    (process_msg E f msg s).mapped_msgid = s.mapped_msgid ∧
    (process_msg E f msg s).next_msgid = s.next_msgid ∧
    (process_msg E f msg s).structure_ = s.structure_ ∧
    sink_writes (process_msg E f msg s).trace = sink_writes s.trace ∧
    clock_stops (process_msg E f msg s).trace = clock_stops s.trace := by
  unfold process_msg
  cases hp : s.msgparser f.type with
  | none => simp
  | some p =>
    simp only []
    have h := maybe_install_frame E
      { s with
        last_timestamp_usec :=
          (E.process_message p msg (s.last_timestamp_usec, s.vehicle)).1
        vehicle := (E.process_message p msg (s.last_timestamp_usec, s.vehicle)).2
        trace := s.trace ++ [Event.process_message p msg] }
    obtain ⟨h1, h2, h3, h4, _⟩ := h
    refine ⟨h2, h3, h4, ?_, ?_⟩
    · rw [h1]; simp [sink_writes]
    · rw [h1]; simp [clock_stops]

/-- The name dispatch of `handle_log_format_msg` leaves the trace, the id map, the
counter and the structure list alone. -/
theorem install_by_name_frame (f : log_Format) (s : LogReader) :
    (install_by_name f s).trace = s.trace ∧
    (install_by_name f s).mapped_msgid = s.mapped_msgid ∧
    (install_by_name f s).next_msgid = s.next_msgid ∧
    (install_by_name f s).structure_ = s.structure_ := by
  unfold install_by_name
  cases dispatch (fmt_name f) <;> simp

/-- The function `map_fmt_type` leaves the trace and the structure list alone. -/
theorem map_fmt_type_frame (name : String) (intype : Nat) (s : LogReader) :
    (map_fmt_type name intype s).2.trace = s.trace ∧
    (map_fmt_type name intype s).2.structure_ = s.structure_ := by
  unfold map_fmt_type
  by_cases h : s.mapped_msgid intype = 0
  · cases hf : find_structure name s.structure_ <;> simp [h]
  · simp [h]


/-! ## The invariant of the remapper -/

theorem find_structure_some_mem (name : String) (l : List LogStructure) (t : Nat)
    (h : find_structure name l = some t) : ∃ e ∈ l, e.name = name ∧ e.msg_type = t := by
  induction l with
  | nil => simp [find_structure] at h
  | cons e rest ih =>
    by_cases hn : name = e.name
    · simp only [find_structure, hn, if_true, Option.some.injEq] at h
      exact ⟨e, List.mem_cons_self _ _, hn.symm, h⟩
    · simp only [find_structure, hn, if_false] at h
      obtain ⟨e1, he1, h1⟩ := ih h
      exact ⟨e1, List.mem_cons_of_mem _ he1, h1⟩

/-- The invariant holds initially. -/
theorem RemapInv.init (cat : List LogStructure) (n0 : Nat) :
    RemapInv cat n0 0 [] (LogReader.init cat n0) := by
  refine ⟨rfl, fun _ => rfl, ?_, ?_, ?_⟩
  · intro id hid; exact absurd rfl hid
  · intro x hx; cases hx
  · intro x hx; cases hx

/-- The invariant only reads the structure list, the counter and the id map. -/
theorem RemapInv.congr {cat : List LogStructure} {n0 a : Nat} {hist : List Remapped}
    {s t : LogReader} (inv : RemapInv cat n0 a hist s)
    (h1 : t.structure_ = s.structure_) (h2 : t.next_msgid = s.next_msgid)
    (h3 : t.mapped_msgid = s.mapped_msgid) : RemapInv cat n0 a hist t :=
  ⟨h1 ▸ inv.cat_eq, fun h => h2.trans (inv.next_eq h), h3 ▸ inv.from_hist, inv.origin,
    inv.distinct⟩

/-- One call of `map_fmt_type` keeps the invariant, when the structure list assigns
ids below the start of the counter and different ids to different names, the counter
has room if the call allocates, and earlier calls with this incoming id had this
name.  The number of allocations grows by one exactly when the call allocates. -/
theorem RemapInv.step {cat : List LogStructure} {n0 a : Nat} {hist : List Remapped}
    {s : LogReader} (inv : RemapInv cat n0 a hist s)
    (hlow : ∀ e ∈ cat, e.msg_type < n0)
    (hinj : ∀ e1 ∈ cat, ∀ e2 ∈ cat, e1.name ≠ e2.name → e1.msg_type ≠ e2.msg_type)
    (name : String) (id : Nat) (hroom : allocates name id s = true → n0 + a < 256)
    (hsame : ∀ x ∈ hist, x.intype = id → x.name = name) :
    ∃ a1, a1 = a + (if allocates name id s = true then 1 else 0) ∧
      RemapInv cat n0 a1 (hist ++ [⟨name, id, (map_fmt_type name id s).1⟩])
        (map_fmt_type name id s).2 := by
  have hcat := inv.cat_eq
  by_cases hz : s.mapped_msgid id = 0
  · cases hf : find_structure name cat with
    | some t =>
      have hmap : map_fmt_type name id s =
          (t, { s with mapped_msgid := Function.update s.mapped_msgid id t }) := by
        simp [map_fmt_type, hz, hcat, hf]
      obtain ⟨e, he, hen, het⟩ := find_structure_some_mem name cat t hf
      refine ⟨a, by simp [allocates, hz, hcat, hf], ?_⟩
      rw [hmap]
      refine ⟨hcat, inv.next_eq, ?_, ?_, ?_⟩
      · intro i hi
        by_cases hii : i = id
        · subst hii
          refine ⟨name, ?_⟩
          simp [Function.update_same]
        · simp only [Function.update_noteq hii] at hi ⊢
          obtain ⟨nm, hnm⟩ := inv.from_hist i hi
          exact ⟨nm, List.mem_append_left _ hnm⟩
      · intro x hx
        rcases List.mem_append.mp hx with hx | hx
        · exact inv.origin x hx
        · simp only [List.mem_singleton] at hx
          subst hx
          exact Or.inl hf
      · have key : ∀ y ∈ hist, y.name ≠ name → y.outtype ≠ t := by
          intro y hy hne
          rcases inv.origin y hy with ho | ⟨_, hge, _⟩
          · obtain ⟨e2, he2, he2n, he2t⟩ := find_structure_some_mem _ _ _ ho
            rw [← he2t, ← het]
            exact hinj e2 he2 e he (by rw [he2n, hen]; exact hne)
          · have := hlow e he
            omega
        intro x hx y hy hne
        rcases List.mem_append.mp hx with hx | hx <;>
          rcases List.mem_append.mp hy with hy | hy
        · exact inv.distinct x hx y hy hne
        · simp only [List.mem_singleton] at hy
          subst hy
          exact key x hx hne
        · simp only [List.mem_singleton] at hx
          subst hx
          exact fun h => key y hy (fun h2 => hne h2.symm) h.symm
        · simp only [List.mem_singleton] at hx hy
          subst hx; subst hy
          exact absurd rfl hne
    | none =>
      have hmap : map_fmt_type name id s =
          (s.next_msgid,
            { s with
              mapped_msgid := Function.update s.mapped_msgid id s.next_msgid
              next_msgid := (s.next_msgid + 1) % 256 }) := by
        simp [map_fmt_type, hz, hcat, hf]
      have hal : allocates name id s = true := by simp [allocates, hz, hcat, hf]
      have hnext : s.next_msgid = n0 + a := inv.next_eq (hroom hal)
      refine ⟨a + 1, by simp [hal], ?_⟩
      rw [hmap, hnext]
      refine ⟨hcat, ?_, ?_, ?_, ?_⟩
      · intro hlt
        show (n0 + a + 1) % 256 = n0 + (a + 1)
        rw [Nat.mod_eq_of_lt (by omega)]
        omega
      · intro i hi
        by_cases hii : i = id
        · subst hii
          refine ⟨name, ?_⟩
          simp [Function.update_same]
        · simp only [Function.update_noteq hii] at hi ⊢
          obtain ⟨nm, hnm⟩ := inv.from_hist i hi
          exact ⟨nm, List.mem_append_left _ hnm⟩
      · intro x hx
        rcases List.mem_append.mp hx with hx | hx
        · rcases inv.origin x hx with ho | ⟨ho, hge, hlt⟩
          · exact Or.inl ho
          · exact Or.inr ⟨ho, hge, by omega⟩
        · simp only [List.mem_singleton] at hx
          subst hx
          exact Or.inr ⟨hf, by simp, by simp⟩
      · have key : ∀ y ∈ hist, y.outtype ≠ n0 + a := by
          intro y hy
          rcases inv.origin y hy with ho | ⟨_, _, hlt⟩
          · obtain ⟨e2, he2, _, he2t⟩ := find_structure_some_mem _ _ _ ho
            have := hlow e2 he2
            omega
          · omega
        intro x hx y hy hne
        rcases List.mem_append.mp hx with hx | hx <;>
          rcases List.mem_append.mp hy with hy | hy
        · exact inv.distinct x hx y hy hne
        · simp only [List.mem_singleton] at hy
          subst hy
          exact key x hx
        · simp only [List.mem_singleton] at hx
          subst hx
          exact fun h => key y hy h.symm
        · simp only [List.mem_singleton] at hx hy
          subst hx; subst hy
          exact absurd rfl hne
  · have hmap : map_fmt_type name id s = (s.mapped_msgid id, s) := by
      simp [map_fmt_type, hz]
    obtain ⟨nm, hnm⟩ := inv.from_hist id hz
    have hnmeq : nm = name := hsame _ hnm rfl
    subst hnmeq
    have hmem : ∀ x, x ∈ hist ++ [⟨nm, id, s.mapped_msgid id⟩] → x ∈ hist := by
      intro x hx
      rcases List.mem_append.mp hx with hx | hx
      · exact hx
      · simp only [List.mem_singleton] at hx
        subst hx
        exact hnm
    refine ⟨a, by simp [allocates, hz], ?_⟩
    rw [hmap]
    exact ⟨hcat, inv.next_eq,
      fun i hi => (inv.from_hist i hi).imp fun _ h => List.mem_append_left _ h,
      fun x hx => inv.origin x (hmem x hx),
      fun x hx y hy => inv.distinct x (hmem x hx) y (hmem y hy)⟩


/-- A sequence of calls keeps different names on different outgoing ids, under the
conditions of `RemapInv.step` at every call: the counter has room for the ids that
the calls allocate. -/
theorem map_calls_distinct {cat : List LogStructure} {n0 : Nat}
    (hlow : ∀ e ∈ cat, e.msg_type < n0)
    (hinj : ∀ e1 ∈ cat, ∀ e2 ∈ cat, e1.name ≠ e2.name → e1.msg_type ≠ e2.msg_type)
    (cs : List (String × Nat)) :
    ∀ (a : Nat) (hist : List Remapped) (s : LogReader), RemapInv cat n0 a hist s →
      n0 + a + map_calls_allocations cs s ≤ 256 →
      (∀ x ∈ hist, ∀ c ∈ cs, x.intype = c.2 → x.name = c.1) →
      (∀ c1 ∈ cs, ∀ c2 ∈ cs, c1.2 = c2.2 → c1.1 = c2.1) →
      ∀ x ∈ hist ++ map_calls cs s, ∀ y ∈ hist ++ map_calls cs s,
        x.name ≠ y.name → x.outtype ≠ y.outtype := by
  induction cs with
  | nil =>
    intro a hist s inv _ _ _
    simpa [map_calls] using inv.distinct
  | cons c rest ih =>
    intro a hist s inv hroom hsame hone
    simp only [map_calls_allocations] at hroom
    obtain ⟨a1, ha1, inv1⟩ := inv.step hlow hinj c.1 c.2
      (fun hal => by rw [if_pos hal] at hroom; omega)
      (fun x hx hxi => hsame x hx c (List.mem_cons_self _ _) hxi)
    have hroom1 : n0 + a1 + map_calls_allocations rest (map_fmt_type c.1 c.2 s).2 ≤ 256 := by
      rw [ha1]
      generalize (if allocates c.1 c.2 s = true then 1 else 0) = k at hroom
      omega
    have hsame1 : ∀ x ∈ hist ++ [⟨c.1, c.2, (map_fmt_type c.1 c.2 s).1⟩],
        ∀ d ∈ rest, x.intype = d.2 → x.name = d.1 := by
      intro x hx d hd hxd
      rcases List.mem_append.mp hx with hx | hx
      · exact hsame x hx d (List.mem_cons_of_mem _ hd) hxd
      · simp only [List.mem_singleton] at hx
        subst hx
        exact hone c (List.mem_cons_self _ _) d (List.mem_cons_of_mem _ hd) hxd
    have hone1 : ∀ c1 ∈ rest, ∀ c2 ∈ rest, c1.2 = c2.2 → c1.1 = c2.1 :=
      fun c1 h1 c2 h2 => hone c1 (List.mem_cons_of_mem _ h1) c2 (List.mem_cons_of_mem _ h2)
    have := ih a1 _ _ inv1 hroom1 hsame1 hone1
    simpa [map_calls, List.append_assoc] using this

/-- What `handle_log_format_msg` does to the remapper and the trace, for a name that is
not generated: the step of `map_fmt_type`, and one format header written. -/
theorem handle_log_format_msg_remap (f : log_Format) (s : LogReader)
    (h : fmt_name f ∉ generated_names) :
    (handle_log_format_msg f s).2.structure_ = (map_fmt_type (fmt_name f) f.type s).2.structure_ ∧
    (handle_log_format_msg f s).2.next_msgid = (map_fmt_type (fmt_name f) f.type s).2.next_msgid ∧
    (handle_log_format_msg f s).2.mapped_msgid =
      (map_fmt_type (fmt_name f) f.type s).2.mapped_msgid ∧
    (handle_log_format_msg f s).2.trace = s.trace ++ [Event.WriteBlock (Block.format
        { f with type := (map_fmt_type (fmt_name f) f.type s).1 })] := by
  have hin := (in_list_false_iff _ _).mpr h
  obtain ⟨h1, h2, h3, h4⟩ := install_by_name_frame f (forward_format f s)
  have h5 := (map_fmt_type_frame (fmt_name f) f.type s).1
  simp only [handle_log_format_msg, h1, h2, h3, h4]
  simp [forward_format, hin, h5]

/-- What `handle_log_format_msg` does to the remapper and the trace, for a generated
name: nothing. -/
theorem handle_log_format_msg_generated (f : log_Format) (s : LogReader)
    (h : fmt_name f ∈ generated_names) :
    (handle_log_format_msg f s).2.structure_ = s.structure_ ∧
    (handle_log_format_msg f s).2.next_msgid = s.next_msgid ∧
    (handle_log_format_msg f s).2.mapped_msgid = s.mapped_msgid ∧
    (handle_log_format_msg f s).2.trace = s.trace := by
  have hin : in_list (fmt_name f) generated_names = true := (in_list_iff _ _).mpr h
  obtain ⟨h1, h2, h3, h4⟩ := install_by_name_frame f (forward_format f s)
  have hs : forward_format f s = s := by simp [forward_format, hin]
  rw [hs] at h1 h2 h3 h4
  simp [handle_log_format_msg, hs, h1, h2, h3, h4]

/-- A session of Format records keeps the invariant, and the format headers it writes
carry the names and outgoing ids of the answered calls. -/
theorem format_session_inv {cat : List LogStructure} {n0 : Nat}
    (hlow : ∀ e ∈ cat, e.msg_type < n0)
    (hinj : ∀ e1 ∈ cat, ∀ e2 ∈ cat, e1.name ≠ e2.name → e1.msg_type ≠ e2.msg_type)
    (fs : List log_Format) :
    ∀ (a : Nat) (hist : List Remapped) (s : LogReader), RemapInv cat n0 a hist s →
      (forwarded_formats s.trace).map (fun g => (fmt_name g, g.type)) =
        hist.map (fun x => (x.name, x.outtype)) →
      n0 + a + format_session_allocations fs s ≤ 256 →
      (∀ x ∈ hist, ∀ f ∈ fs, fmt_name f ∉ generated_names → x.intype = f.type →
        x.name = fmt_name f) →
      (∀ f1 ∈ fs, ∀ f2 ∈ fs, fmt_name f1 ∉ generated_names → fmt_name f2 ∉ generated_names →
        f1.type = f2.type → fmt_name f1 = fmt_name f2) →
      ∃ a1 hist1, RemapInv cat n0 a1 hist1 (format_session fs s) ∧
        (forwarded_formats (format_session fs s).trace).map (fun g => (fmt_name g, g.type)) =
          hist1.map (fun x => (x.name, x.outtype)) := by
  induction fs with
  | nil =>
    intro a hist s inv hview _ _ _
    exact ⟨a, hist, inv, hview⟩
  | cons f rest ih =>
    intro a hist s inv hview hroom hsame hone
    simp only [format_session_allocations] at hroom
    have hone1 : ∀ f1 ∈ rest, ∀ f2 ∈ rest, fmt_name f1 ∉ generated_names →
        fmt_name f2 ∉ generated_names → f1.type = f2.type → fmt_name f1 = fmt_name f2 :=
      fun f1 h1 f2 h2 => hone f1 (List.mem_cons_of_mem _ h1) f2 (List.mem_cons_of_mem _ h2)
    simp only [format_session]
    by_cases hg : fmt_name f ∈ generated_names
    · obtain ⟨h1, h2, h3, h4⟩ := handle_log_format_msg_generated f s hg
      have hin : in_list (fmt_name f) generated_names = true := (in_list_iff _ _).mpr hg
      simp only [hin, Bool.true_eq_false, false_and, if_false, Nat.zero_add] at hroom
      exact ih a hist _ (inv.congr h1 h2 h3) (by rw [h4]; exact hview) hroom
        (fun x hx g hgm => hsame x hx g (List.mem_cons_of_mem _ hgm)) hone1
    · obtain ⟨h1, h2, h3, h4⟩ := handle_log_format_msg_remap f s hg
      have hin : in_list (fmt_name f) generated_names = false :=
        (in_list_false_iff _ _).mpr hg
      simp only [hin, true_and] at hroom
      obtain ⟨a1, ha1, inv1⟩ := inv.step hlow hinj (fmt_name f) f.type
        (fun hal => by rw [if_pos hal] at hroom; omega)
        (fun x hx hxi => hsame x hx f (List.mem_cons_self _ _) hg hxi)
      have hroom1 : n0 + a1 +
          format_session_allocations rest (handle_log_format_msg f s).2 ≤ 256 := by
        rw [ha1]
        generalize (if allocates (fmt_name f) f.type s = true then 1 else 0) = k at hroom
        omega
      refine ih a1 _ _ (inv1.congr h1 h2 h3) ?_ hroom1 ?_ hone1
      · rw [h4]
        simp only [forwarded_formats, List.filterMap_append, List.map_append] at hview ⊢
        rw [hview]
        simp [fmt_name]
      · intro x hx g hgm hgn hxg
        rcases List.mem_append.mp hx with hx | hx
        · exact hsame x hx g (List.mem_cons_of_mem _ hgm) hgn hxg
        · simp only [List.mem_singleton] at hx
          subst hx
          exact hone f (List.mem_cons_self _ _) g (List.mem_cons_of_mem _ hgm) hg hgn hxg

/-- A sequence of calls allocates at most one id per call. -/
theorem map_calls_allocations_le (cs : List (String × Nat)) :
    ∀ s : LogReader, map_calls_allocations cs s ≤ cs.length := by
  induction cs with
  | nil => intro s; simp [map_calls_allocations]
  | cons c rest ih =>
    intro s
    have := ih (map_fmt_type c.1 c.2 s).2
    simp only [map_calls_allocations, List.length_cons]
    split <;> omega

/-- A sequence of Format records allocates at most one id per record. -/
theorem format_session_allocations_le (fs : List log_Format) :
    ∀ s : LogReader, format_session_allocations fs s ≤ fs.length := by
  induction fs with
  | nil => intro s; simp [format_session_allocations]
  | cons f rest ih =>
    intro s
    have := ih (handle_log_format_msg f s).2
    simp only [format_session_allocations, List.length_cons]
    split <;> omega

/-! ## Frame facts for sessions -/

/-- The function `map_fmt_type` only writes `mapped_msgid` and `next_msgid`. -/
theorem map_fmt_type_others (name : String) (intype : Nat) (s : LogReader) :
    (map_fmt_type name intype s).2.msgparser = s.msgparser ∧
    (map_fmt_type name intype s).2.deferred_formats = s.deferred_formats ∧
    (map_fmt_type name intype s).2.parameter_handler = s.parameter_handler ∧
    (map_fmt_type name intype s).2.formats = s.formats ∧
    (map_fmt_type name intype s).2.vehicle = s.vehicle ∧
    (map_fmt_type name intype s).2.installed_vehicle_specific_parsers =
      s.installed_vehicle_specific_parsers ∧
    (map_fmt_type name intype s).2.heap = s.heap := by
  unfold map_fmt_type
  by_cases h : s.mapped_msgid intype = 0
  · cases hf : find_structure name s.structure_ <;> simp [h]
  · simp [h]

/-- The forwarding part of `handle_log_format_msg` leaves the handlers, the deferred
table, the registered formats, the vehicle, the flag and the heap alone. -/
theorem forward_format_others (f : log_Format) (s : LogReader) :
    (forward_format f s).msgparser = s.msgparser ∧
    (forward_format f s).deferred_formats = s.deferred_formats ∧
    (forward_format f s).parameter_handler = s.parameter_handler ∧
    (forward_format f s).formats = s.formats ∧
    (forward_format f s).vehicle = s.vehicle ∧
    (forward_format f s).installed_vehicle_specific_parsers =
      s.installed_vehicle_specific_parsers ∧
    (forward_format f s).heap = s.heap := by
  unfold forward_format
  by_cases hin : in_list (fmt_name f) generated_names = false
  · simpa [hin] using map_fmt_type_others (fmt_name f) f.type s
  · simp [hin]

/-- The function `handle_log_format_msg` leaves the vehicle, the flag and the
registered formats alone. -/
theorem handle_log_format_msg_flag (f : log_Format) (s : LogReader) :
    (handle_log_format_msg f s).2.installed_vehicle_specific_parsers =
      s.installed_vehicle_specific_parsers ∧
    (handle_log_format_msg f s).2.vehicle = s.vehicle ∧
    (handle_log_format_msg f s).2.formats = s.formats := by
  obtain ⟨_, _, _, h4, h5, h6, _⟩ := forward_format_others f s
  simp only [handle_log_format_msg, install_by_name]
  cases dispatch (fmt_name f) <;> simp [h4, h5, h6]

/-- What `handle_log_format_msg` does to the handler table, the parameter handler and
the deferred table, branch by branch. -/
theorem handle_log_format_msg_dispatch (f : log_Format) (s : LogReader) :
    (dispatch (fmt_name f) = Dispatch.parm →
      (handle_log_format_msg f s).2.msgparser = Function.update s.msgparser f.type
        (some ⟨HandlerClass.PARM, s.formats f.type, s.heap⟩) ∧
      (handle_log_format_msg f s).2.parameter_handler =
        some ⟨HandlerClass.PARM, s.formats f.type, s.heap⟩ ∧
      (handle_log_format_msg f s).2.deferred_formats = s.deferred_formats) ∧
    (∀ cls, dispatch (fmt_name f) = Dispatch.parser cls →
      (handle_log_format_msg f s).2.msgparser = Function.update s.msgparser f.type
        (some ⟨cls, s.formats f.type, s.heap⟩) ∧
      (handle_log_format_msg f s).2.parameter_handler = s.parameter_handler ∧
      (handle_log_format_msg f s).2.deferred_formats = s.deferred_formats) ∧
    (dispatch (fmt_name f) = Dispatch.deferred →
      (handle_log_format_msg f s).2.msgparser = s.msgparser ∧
      (handle_log_format_msg f s).2.parameter_handler = s.parameter_handler ∧
      (handle_log_format_msg f s).2.deferred_formats =
        Function.update s.deferred_formats f.type (s.formats f.type)) ∧
    (dispatch (fmt_name f) = Dispatch.unhandled →
      (handle_log_format_msg f s).2.msgparser = s.msgparser ∧
      (handle_log_format_msg f s).2.parameter_handler = s.parameter_handler ∧
      (handle_log_format_msg f s).2.deferred_formats = s.deferred_formats) := by
  obtain ⟨h1, h2, h3, h4, _, _, h7⟩ := forward_format_others f s
  simp only [handle_log_format_msg, install_by_name]
  refine ⟨fun hd => ?_, fun cls hd => ?_, fun hd => ?_, fun hd => ?_⟩ <;>
    simp [hd, h1, h2, h3, h4, h7]

/-- The function `handle_log_format_msg` changes the binding of a type id only when it
is the record's and the branch taken constructs a handler. -/
theorem handle_log_format_msg_msgparser (f : log_Format) (t : Nat) (s : LogReader)
    (h : f.type ≠ t ∨ (dispatch (fmt_name f)).binds = false) :
    (handle_log_format_msg f s).2.msgparser t = s.msgparser t := by
  obtain ⟨hp, hc, hd, hu⟩ := handle_log_format_msg_dispatch f s
  cases hdis : dispatch (fmt_name f) with
  | parm =>
    rcases h with h | h
    · rw [(hp hdis).1, Function.update_noteq (fun e => h e.symm)]
    · simp [hdis, Dispatch.binds] at h
  | parser cls =>
    rcases h with h | h
    · rw [(hc cls hdis).1, Function.update_noteq (fun e => h e.symm)]
    · simp [hdis, Dispatch.binds] at h
  | deferred => rw [(hd hdis).1]
  | unhandled => rw [(hu hdis).1]

/-- The installer either changes neither the handler table nor the flag, or it finds
the flag false and leaves it true. -/
theorem maybe_install_cases (E : Externals) (s : LogReader) :
    (maybe_install_vehicle_specific_parsers E s = s) ∨
    (s.installed_vehicle_specific_parsers = false ∧
      (maybe_install_vehicle_specific_parsers E s).installed_vehicle_specific_parsers =
        true) := by
  unfold maybe_install_vehicle_specific_parsers
  by_cases h : s.installed_vehicle_specific_parsers = false ∧
      s.vehicle ≠ VehicleType.VEHICLE_UNKNOWN
  · right
    rw [if_pos h]
    exact ⟨h.1, rfl⟩
  · left
    rw [if_neg h]

/-- The forwarding part of `handle_msg`, when it returns, leaves the handlers, the
deferred table, the parameter handler and the flag alone. -/
theorem forward_msg_others (f : log_Format) (msg : List Nat) (s : LogReader)
    (r : List Nat × LogReader) (h : forward_msg f msg s = Except.ok r) :
    r.2.msgparser = s.msgparser ∧
    r.2.deferred_formats = s.deferred_formats ∧
    r.2.parameter_handler = s.parameter_handler ∧
    r.2.installed_vehicle_specific_parsers = s.installed_vehicle_specific_parsers ∧
    r.2.formats = s.formats := by
  unfold forward_msg at h
  split at h
  · split at h
    · cases h
    · cases h; exact ⟨rfl, rfl, rfl, rfl, rfl⟩
  · cases h; exact ⟨rfl, rfl, rfl, rfl, rfl⟩

/-- The function `handle_msg`, when it exits, leaves everything but the trace alone. -/
theorem handle_msg_exit_state (E : Externals) (f : log_Format) (msg : List Nat)
    (s : LogReader) (h : Halt) (hh : handle_msg E f msg s = Except.error h) :
    h.s.msgparser = s.msgparser ∧
    h.s.deferred_formats = s.deferred_formats ∧
    h.s.parameter_handler = s.parameter_handler ∧
    h.s.installed_vehicle_specific_parsers = s.installed_vehicle_specific_parsers := by
  unfold handle_msg at hh
  cases hfw : forward_msg f msg s with
  | ok r0 => rw [hfw] at hh; cases hh
  | error h0 =>
    rw [hfw] at hh
    cases hh
    unfold forward_msg at hfw
    split at hfw
    · split at hfw
      · cases hfw; exact ⟨rfl, rfl, rfl, rfl⟩
      · cases hfw
    · cases hfw

/-- The function `handle_msg`, when it returns, leaves the deferred table and the
parameter handler alone, and either changes neither the handler table nor the flag or
finds the flag false and leaves it true. -/
theorem handle_msg_others (E : Externals) (f : log_Format) (msg : List Nat)
    (s : LogReader) (r : Bool × List Nat × LogReader)
    (h : handle_msg E f msg s = Except.ok r) :
    r.2.2.deferred_formats = s.deferred_formats ∧
    r.2.2.parameter_handler = s.parameter_handler ∧
    ((r.2.2.msgparser = s.msgparser ∧
        r.2.2.installed_vehicle_specific_parsers = s.installed_vehicle_specific_parsers) ∨
      (s.installed_vehicle_specific_parsers = false ∧
        r.2.2.installed_vehicle_specific_parsers = true)) := by
  unfold handle_msg at h
  cases hfw : forward_msg f msg s with
  | error h0 => rw [hfw] at h; cases h
  | ok r0 =>
    rw [hfw] at h
    cases h
    obtain ⟨h1, h2, h3, h4, _⟩ := forward_msg_others f msg s r0 hfw
    simp only []
    unfold process_msg
    cases hp : r0.2.msgparser f.type with
    | none => exact ⟨h2, h3, Or.inl ⟨h1, h4⟩⟩
    | some p =>
      simp only []
      obtain ⟨_, _, _, _, hd, hph, _⟩ := maybe_install_frame E
        { r0.2 with
          last_timestamp_usec :=
            (E.process_message p r0.1 (r0.2.last_timestamp_usec, r0.2.vehicle)).1
          vehicle := (E.process_message p r0.1 (r0.2.last_timestamp_usec, r0.2.vehicle)).2
          trace := r0.2.trace ++ [Event.process_message p r0.1] }
      refine ⟨hd.trans h2, hph.trans h3, ?_⟩
      rcases maybe_install_cases E
        { r0.2 with
          last_timestamp_usec :=
            (E.process_message p r0.1 (r0.2.last_timestamp_usec, r0.2.vehicle)).1
          vehicle := (E.process_message p r0.1 (r0.2.last_timestamp_usec, r0.2.vehicle)).2
          trace := r0.2.trace ++ [Event.process_message p r0.1] } with hc | hc
      · left
        rw [hc]
        exact ⟨h1, h4⟩
      · right
        exact ⟨h4 ▸ hc.1, hc.2⟩


/-- A step that is not a call of `handle_log_format_msg` leaves the deferred table and
the parameter handler alone, and either changes neither the handler table nor the flag
or finds the flag false and leaves it true. -/
theorem Step.apply_not_format (E : Externals) (st : Step) (s s1 : LogReader)
    (hst : st.is_format = false) (h : Step.apply E st s = Except.ok s1) :
    s1.deferred_formats = s.deferred_formats ∧
    s1.parameter_handler = s.parameter_handler ∧
    ((s1.msgparser = s.msgparser ∧
        s1.installed_vehicle_specific_parsers = s.installed_vehicle_specific_parsers) ∨
      (s.installed_vehicle_specific_parsers = false ∧
        s1.installed_vehicle_specific_parsers = true)) := by
  cases st with
  | register i g =>
    cases h
    exact ⟨rfl, rfl, Or.inl ⟨rfl, rfl⟩⟩
  | op o =>
    cases o with
    | map name intype =>
      cases h
      obtain ⟨h1, h2, h3, _, _, h6, _⟩ := map_fmt_type_others name intype s
      exact ⟨h2, h3, Or.inl ⟨h1, h6⟩⟩
    | format f => simp [Step.is_format] at hst
    | data f m =>
      simp only [Step.apply, Op.apply] at h
      cases hm : handle_msg E f m s with
      | error h0 => rw [hm] at h; cases h
      | ok r =>
        rw [hm] at h
        cases h
        exact handle_msg_others E f m s r hm
    | install =>
      cases h
      obtain ⟨_, _, _, _, hd, hph, _⟩ := maybe_install_frame E s
      refine ⟨hd, hph, ?_⟩
      rcases maybe_install_cases E s with hc | hc
      · left; rw [hc]; exact ⟨rfl, rfl⟩
      · right; exact hc

/-- A step that exits leaves the handler table, the deferred table, the parameter
handler and the flag as they were. -/
theorem Step.apply_exit (E : Externals) (st : Step) (s : LogReader) (h : Halt)
    (hh : Step.apply E st s = Except.error h) :
    h.s.msgparser = s.msgparser ∧
    h.s.deferred_formats = s.deferred_formats ∧
    h.s.parameter_handler = s.parameter_handler ∧
    h.s.installed_vehicle_specific_parsers = s.installed_vehicle_specific_parsers := by
  cases st with
  | register i g => cases hh
  | op o =>
    cases o with
    | map name intype => cases hh
    | format f => cases hh
    | data f m =>
      simp only [Step.apply, Op.apply] at hh
      cases hm : handle_msg E f m s with
      | error h0 =>
        rw [hm] at hh
        cases hh
        exact handle_msg_exit_state E f m s _ hm
      | ok r => rw [hm] at hh; cases hh
    | install => cases hh

/-- No step resets the flag `installed_vehicle_specific_parsers`. -/
theorem Step.apply_flag (E : Externals) (st : Step) (s s1 : LogReader)
    (hflag : s.installed_vehicle_specific_parsers = true)
    (h : Step.apply E st s = Except.ok s1) :
    s1.installed_vehicle_specific_parsers = true := by
  by_cases hst : st.is_format = false
  · rcases (Step.apply_not_format E st s s1 hst h).2.2 with hc | hc
    · rw [hc.2]; exact hflag
    · exact hc.2
  · cases st with
    | register i g => simp [Step.is_format] at hst
    | op o =>
      cases o with
      | format f =>
        cases h
        rw [(handle_log_format_msg_flag f s).1]; exact hflag
      | map name intype => simp [Step.is_format] at hst
      | data f m => simp [Step.is_format] at hst
      | install => simp [Step.is_format] at hst

/-- Once the flag is true, a step changes the binding of `t` only if it is a Format
record for `t` whose name has a handler class. -/
theorem Step.apply_msgparser_of_flag (E : Externals) (st : Step) (t : Nat)
    (s s1 : LogReader) (hflag : s.installed_vehicle_specific_parsers = true)
    (hst : ∀ f, st = Step.op (Op.format f) → f.type = t →
      (dispatch (fmt_name f)).binds = false)
    (h : Step.apply E st s = Except.ok s1) :
    s1.msgparser t = s.msgparser t := by
  by_cases hf : st.is_format = false
  · rcases (Step.apply_not_format E st s s1 hf h).2.2 with hc | hc
    · rw [hc.1]
    · rw [hflag] at hc; cases hc.1
  · cases st with
    | register i g => simp [Step.is_format] at hf
    | op o =>
      cases o with
      | format f =>
        cases h
        apply handle_log_format_msg_msgparser
        by_cases ht : f.type = t
        · exact Or.inr (hst f rfl ht)
        · exact Or.inl ht
      | map name intype => simp [Step.is_format] at hf
      | data f m => simp [Step.is_format] at hf
      | install => simp [Step.is_format] at hf

/-- Once the flag is true, the binding of `t` is the same after any session in which
no Format record for `t` has a name with a handler class. -/
theorem session_msgparser_of_flag (E : Externals) (t : Nat) (steps : List Step) :
    ∀ s : LogReader, s.installed_vehicle_specific_parsers = true →
      (∀ f, Step.op (Op.format f) ∈ steps → f.type = t →
        (dispatch (fmt_name f)).binds = false) →
      (session E steps s).msgparser t = s.msgparser t := by
  induction steps with
  | nil => intro s _ _; rfl
  | cons st rest ih =>
    intro s hflag hsteps
    simp only [session]
    cases hap : Step.apply E st s with
    | error h => simp only []; rw [(Step.apply_exit E st s h hap).1]
    | ok s1 =>
      simp only []
      rw [ih s1 (Step.apply_flag E st s s1 hflag hap)
        (fun f hf => hsteps f (List.mem_cons_of_mem _ hf))]
      exact Step.apply_msgparser_of_flag E st t s s1 hflag
        (fun f hf => hsteps f (hf ▸ List.mem_cons_self _ _)) hap


/-- Only the name "PARM" takes the branch that sets the parameter handler. -/
theorem dispatch_parm_iff (name : String) : dispatch name = Dispatch.parm ↔ name = "PARM" := by
  have ite_ne : ∀ (c : Prop) [Decidable c] (a b : Dispatch), a ≠ Dispatch.parm →
      b ≠ Dispatch.parm → (if c then a else b) ≠ Dispatch.parm := by
    intro c _ a b ha hb
    split <;> assumption
  by_cases h : name = "PARM"
  · simp [h, dispatch]
  · refine ⟨fun hd => absurd hd ?_, fun hn => absurd hn h⟩
    unfold dispatch
    rw [if_neg h]
    repeat' apply ite_ne
    all_goals simp

/-- A step leaves the parameter handler as it was, unless it handles a "PARM" format:
then the parameter handler is a new PARM handler. -/
theorem Step.apply_parameter_handler (E : Externals) (st : Step) (s s1 : LogReader)
    (h : Step.apply E st s = Except.ok s1) :
    s1.parameter_handler = s.parameter_handler ∨
    (∃ f, st = Step.op (Op.format f) ∧ fmt_name f = "PARM" ∧
      s1.parameter_handler = some ⟨HandlerClass.PARM, s.formats f.type, s.heap⟩) := by
  by_cases hf : st.is_format = false
  · exact Or.inl (Step.apply_not_format E st s s1 hf h).2.1
  · cases st with
    | register i g => simp [Step.is_format] at hf
    | op o =>
      cases o with
      | format f =>
        cases h
        obtain ⟨hp, hc, hd, hu⟩ := handle_log_format_msg_dispatch f s
        cases hdis : dispatch (fmt_name f) with
        | parm => exact Or.inr ⟨f, rfl, (dispatch_parm_iff _).mp hdis, (hp hdis).2.1⟩
        | parser cls => exact Or.inl (hc cls hdis).2.1
        | deferred => exact Or.inl (hd hdis).2.1
        | unhandled => exact Or.inl (hu hdis).2.1
      | map name intype => simp [Step.is_format] at hf
      | data f m => simp [Step.is_format] at hf
      | install => simp [Step.is_format] at hf

/-- Without a "PARM" format in the session, the parameter handler is the one the
session started with. -/
theorem session_parameter_handler (E : Externals) (steps : List Step) :
    ∀ s : LogReader, (∀ f, Step.op (Op.format f) ∈ steps → fmt_name f ≠ "PARM") →
      (session E steps s).parameter_handler = s.parameter_handler := by
  induction steps with
  | nil => intro s _; rfl
  | cons st rest ih =>
    intro s hsteps
    simp only [session]
    cases hap : Step.apply E st s with
    | error h => simp only []; exact (Step.apply_exit E st s h hap).2.2.1
    | ok s1 =>
      simp only []
      rw [ih s1 (fun f hf => hsteps f (List.mem_cons_of_mem _ hf))]
      rcases Step.apply_parameter_handler E st s s1 hap with hc | ⟨f, hst, hname, _⟩
      · exact hc
      · exact absurd hname (hsteps f (hst ▸ List.mem_cons_self _ _))

/-- Once there is a parameter handler of class PARM, there is one after any session. -/
theorem session_parameter_handler_some (E : Externals) (steps : List Step) :
    ∀ s : LogReader, (∃ p, s.parameter_handler = some p ∧ p.cls = HandlerClass.PARM) →
      ∃ p, (session E steps s).parameter_handler = some p ∧ p.cls = HandlerClass.PARM := by
  induction steps with
  | nil => intro s hs; exact hs
  | cons st rest ih =>
    intro s hs
    simp only [session]
    cases hap : Step.apply E st s with
    | error h =>
      simp only []
      rw [(Step.apply_exit E st s h hap).2.2.1]
      exact hs
    | ok s1 =>
      simp only []
      apply ih s1
      rcases Step.apply_parameter_handler E st s s1 hap with hc | ⟨f, _, _, hnew⟩
      · rw [hc]; exact hs
      · exact ⟨_, hnew, rfl⟩


/-! ## C1: repeated calls of `map_fmt_type` -/

/-- When are two successive calls `map_fmt_type(name, intype)` answered alike?  Always,
except in one case: the id is unmapped, the name is not in the structure list and the
counter stands at 0.  Then the first call records 0, which reads as "not mapped". -/
theorem map_fmt_type_twice (name : String) (intype : Nat) (s : LogReader) :
    (map_fmt_type name intype (map_fmt_type name intype s).2).1 =
        (map_fmt_type name intype s).1 ↔
      ¬ (s.mapped_msgid intype = 0 ∧ find_structure name s.structure_ = none ∧
          s.next_msgid = 0) := by
  unfold map_fmt_type
  by_cases h : s.mapped_msgid intype = 0
  · cases hf : find_structure name s.structure_ with
    | none =>
      by_cases hn : s.next_msgid = 0
      · simp [h, hf, hn]
      · simp [h, hf, hn]
    | some t =>
      by_cases ht : t = 0
      · simp [h, hf, ht]
      · simp [h, hf, ht]
  · simp [h]

/-- Declaring a name that is not in the structure list under the `m` fresh ids
`j, j+1, ..., j+m-1` advances the counter by `m` (as an 8-bit value) and leaves the ids
from `j+m` on unmapped. -/
theorem map_calls_end_fresh (name : String) (m : Nat) :
    ∀ (j : Nat) (s : LogReader), find_structure name s.structure_ = none →
      (∀ k, j ≤ k → s.mapped_msgid k = 0) →
      (map_calls_end ((List.range' j m).map (fun k => (name, k))) s).next_msgid % 256 =
          (s.next_msgid + m) % 256 ∧
      (s.next_msgid < 256 →
        (map_calls_end ((List.range' j m).map (fun k => (name, k))) s).next_msgid < 256) ∧
      (∀ k, j + m ≤ k →
        (map_calls_end ((List.range' j m).map (fun k => (name, k))) s).mapped_msgid k = 0) ∧
      (map_calls_end ((List.range' j m).map (fun k => (name, k))) s).structure_ =
        s.structure_ := by
  induction m with
  | zero =>
    intro j s _ hun
    exact ⟨rfl, fun h => h, fun k hk => hun k (by omega), rfl⟩
  | succ m ih =>
    intro j s hfind hun
    have hz : s.mapped_msgid j = 0 := hun j (le_refl _)
    have hmap : map_fmt_type name j s =
        (s.next_msgid,
          { s with
            mapped_msgid := Function.update s.mapped_msgid j s.next_msgid
            next_msgid := (s.next_msgid + 1) % 256 }) := by
      simp [map_fmt_type, hz, hfind]
    simp only [List.range'_succ, List.map_cons, map_calls_end, hmap]
    obtain ⟨h1, h2, h3, h4⟩ := ih (j + 1)
      { s with
        mapped_msgid := Function.update s.mapped_msgid j s.next_msgid
        next_msgid := (s.next_msgid + 1) % 256 } hfind
      (fun k hk => by
        show Function.update s.mapped_msgid j s.next_msgid k = 0
        rw [Function.update_noteq (by omega)]
        exact hun k (by omega))
    refine ⟨?_, fun _ => h2 (Nat.mod_lt _ (by omega)), fun k hk => h3 k (by omega), h4⟩
    rw [h1]
    show ((s.next_msgid + 1) % 256 + m) % 256 = (s.next_msgid + (m + 1)) % 256
    omega

/-- The state in which repeated calls differ is reached in a session, whatever value
below 256 the counter starts at: after declarations of a name that is not in the
structure list under fresh ids the counter stands at 0, and then a further fresh id is
answered 0 by a first call and 1 by a second call. -/
theorem map_fmt_type_twice_differs_reachable (cat : List LogStructure) (n0 : Nat)
    (name : String) (hn0 : n0 < 256) (hname : find_structure name cat = none) :
    ∃ cs : List (String × Nat), ∃ id, id < 256 ∧ (∀ c ∈ cs, c.2 < 256) ∧
      (map_fmt_type name id (map_calls_end cs (LogReader.init cat n0))).1 = 0 ∧
      (map_fmt_type name id
        (map_fmt_type name id (map_calls_end cs (LogReader.init cat n0))).2).1 = 1 := by
  obtain ⟨h1, h2, h3, h4⟩ := map_calls_end_fresh name ((256 - n0) % 256) 0
    (LogReader.init cat n0) hname (fun _ _ => rfl)
  have hnext : (map_calls_end ((List.range' 0 ((256 - n0) % 256)).map (fun k => (name, k)))
      (LogReader.init cat n0)).next_msgid = 0 := by
    have hlt := h2 hn0
    have hmod : (LogReader.init cat n0).next_msgid = n0 := rfl
    rw [hmod] at h1
    omega
  have hun := h3 ((256 - n0) % 256) (by omega)
  have hfind : find_structure name
      (map_calls_end ((List.range' 0 ((256 - n0) % 256)).map (fun k => (name, k)))
        (LogReader.init cat n0)).structure_ = none := by
    rw [h4]; exact hname
  refine ⟨(List.range' 0 ((256 - n0) % 256)).map (fun k => (name, k)), (256 - n0) % 256,
    Nat.mod_lt _ (by omega), ?_, ?_, ?_⟩
  · intro c hc
    obtain ⟨k, hk, hkc⟩ := List.mem_map.mp hc
    rw [← hkc]
    have := (List.mem_range'_1.mp hk).2
    show k < 256
    omega
  · simp [map_fmt_type, hun, hfind, hnext]
  · simp [map_fmt_type, hun, hfind, hnext]


/-- C1, at the failing input: with every id unmapped, an empty structure list and the
counter at 0, the first call `map_fmt_type("GPS", 3)` returns 0 and the second call
returns 1. -/
theorem map_fmt_type_twice_differs_at_zero :
    (LogReader.init [] 0).mapped_msgid 3 = 0 ∧
    (map_fmt_type "GPS" 3 (LogReader.init [] 0)).1 = 0 ∧
    (map_fmt_type "GPS" 3 (map_fmt_type "GPS" 3 (LogReader.init [] 0)).2).1 = 1 := by
  decide


/-! ## C2: collisions of outgoing ids over a session of Format records -/

/-- C2 as stated fails, in four ways; each session below writes two format headers
with different names and the same type.
(1) A type id declared again under another name keeps its mapping: "GPS" and "IMU",
both declared under 3, are both forwarded as 200.
(2) The 8-bit counter wraps: started at 255, it gives 255, 0, 1, and the 1 is the id
the structure list has for "GPS".
(3) The structure list holds the id the counter starts at.
(4) The structure list holds two names with one id. -/
theorem format_session_collides :
    (forwarded_formats (format_session
        [⟨3, 40, "GPS".toList, []⟩, ⟨3, 30, "IMU".toList, []⟩] (LogReader.init [] 200)).trace =
        [⟨200, 40, "GPS".toList, []⟩, ⟨200, 30, "IMU".toList, []⟩] ∧
      ¬ FormatsCollisionFree (forwarded_formats (format_session
        [⟨3, 40, "GPS".toList, []⟩, ⟨3, 30, "IMU".toList, []⟩]
        (LogReader.init [] 200)).trace)) ∧
    (forwarded_formats (format_session
        [⟨1, 9, "ATT".toList, []⟩, ⟨2, 9, "BARO".toList, []⟩, ⟨3, 9, "MAG".toList, []⟩,
         ⟨4, 9, "GPS".toList, []⟩] (LogReader.init [⟨1, "GPS"⟩] 255)).trace =
        [⟨255, 9, "ATT".toList, []⟩, ⟨0, 9, "BARO".toList, []⟩, ⟨1, 9, "MAG".toList, []⟩,
         ⟨1, 9, "GPS".toList, []⟩] ∧
      ¬ FormatsCollisionFree (forwarded_formats (format_session
        [⟨1, 9, "ATT".toList, []⟩, ⟨2, 9, "BARO".toList, []⟩, ⟨3, 9, "MAG".toList, []⟩,
         ⟨4, 9, "GPS".toList, []⟩] (LogReader.init [⟨1, "GPS"⟩] 255)).trace)) ∧
    (forwarded_formats (format_session
        [⟨1, 9, "IMU".toList, []⟩, ⟨2, 9, "GPS".toList, []⟩]
        (LogReader.init [⟨200, "GPS"⟩] 200)).trace =
        [⟨200, 9, "IMU".toList, []⟩, ⟨200, 9, "GPS".toList, []⟩] ∧
      ¬ FormatsCollisionFree (forwarded_formats (format_session
        [⟨1, 9, "IMU".toList, []⟩, ⟨2, 9, "GPS".toList, []⟩]
        (LogReader.init [⟨200, "GPS"⟩] 200)).trace)) ∧
    (forwarded_formats (format_session
        [⟨1, 9, "IMU".toList, []⟩, ⟨2, 9, "GPS".toList, []⟩]
        (LogReader.init [⟨5, "GPS"⟩, ⟨5, "IMU"⟩] 200)).trace =
        [⟨5, 9, "IMU".toList, []⟩, ⟨5, 9, "GPS".toList, []⟩] ∧
      ¬ FormatsCollisionFree (forwarded_formats (format_session
        [⟨1, 9, "IMU".toList, []⟩, ⟨2, 9, "GPS".toList, []⟩]
        (LogReader.init [⟨5, "GPS"⟩, ⟨5, "IMU"⟩] 200)).trace)) := by
  have e1 : forwarded_formats (format_session
      [⟨3, 40, "GPS".toList, []⟩, ⟨3, 30, "IMU".toList, []⟩] (LogReader.init [] 200)).trace =
      [⟨200, 40, "GPS".toList, []⟩, ⟨200, 30, "IMU".toList, []⟩] := by decide
  have e2 : forwarded_formats (format_session
      [⟨1, 9, "ATT".toList, []⟩, ⟨2, 9, "BARO".toList, []⟩, ⟨3, 9, "MAG".toList, []⟩,
       ⟨4, 9, "GPS".toList, []⟩] (LogReader.init [⟨1, "GPS"⟩] 255)).trace =
      [⟨255, 9, "ATT".toList, []⟩, ⟨0, 9, "BARO".toList, []⟩, ⟨1, 9, "MAG".toList, []⟩,
       ⟨1, 9, "GPS".toList, []⟩] := by decide
  have e3 : forwarded_formats (format_session
      [⟨1, 9, "IMU".toList, []⟩, ⟨2, 9, "GPS".toList, []⟩]
      (LogReader.init [⟨200, "GPS"⟩] 200)).trace =
      [⟨200, 9, "IMU".toList, []⟩, ⟨200, 9, "GPS".toList, []⟩] := by decide
  have e4 : forwarded_formats (format_session
      [⟨1, 9, "IMU".toList, []⟩, ⟨2, 9, "GPS".toList, []⟩]
      (LogReader.init [⟨5, "GPS"⟩, ⟨5, "IMU"⟩] 200)).trace =
      [⟨5, 9, "IMU".toList, []⟩, ⟨5, 9, "GPS".toList, []⟩] := by decide
  refine ⟨⟨e1, ?_⟩, ⟨e2, ?_⟩, ⟨e3, ?_⟩, ⟨e4, ?_⟩⟩
  · rw [e1]
    exact fun h => h ⟨200, 40, "GPS".toList, []⟩ (by decide) ⟨200, 30, "IMU".toList, []⟩
      (by decide) (by decide) rfl
  · rw [e2]
    exact fun h => h ⟨1, 9, "MAG".toList, []⟩ (by decide) ⟨1, 9, "GPS".toList, []⟩
      (by decide) (by decide) rfl
  · rw [e3]
    exact fun h => h ⟨200, 9, "IMU".toList, []⟩ (by decide) ⟨200, 9, "GPS".toList, []⟩
      (by decide) (by decide) rfl
  · rw [e4]
    exact fun h => h ⟨5, 9, "IMU".toList, []⟩ (by decide) ⟨5, 9, "GPS".toList, []⟩
      (by decide) (by decide) rfl

/-- C2, amended: from the initial state, when every id of the structure list is below the
start value of the counter, different names of the structure list have different ids,
the counter does not wrap (the start value plus the number of ids that the session
allocates is at most 256; Format records of generated names, of names of the structure
list and of type ids that are already mapped allocate nothing) and no type id is
declared under two names that are not generated, any two format headers that a
sequence of Format records sends to the sink under different names carry different
outgoing ids. -/
theorem format_session_collision_free (cat : List LogStructure) (n0 : Nat)
    (fs : List log_Format)
    (hlow : ∀ e ∈ cat, e.msg_type < n0)
    (hinj : ∀ e1 ∈ cat, ∀ e2 ∈ cat, e1.name ≠ e2.name → e1.msg_type ≠ e2.msg_type)
    (hroom : n0 + format_session_allocations fs (LogReader.init cat n0) ≤ 256)
    (hone : ∀ f1 ∈ fs, ∀ f2 ∈ fs, fmt_name f1 ∉ generated_names →
      fmt_name f2 ∉ generated_names → f1.type = f2.type → fmt_name f1 = fmt_name f2) :
    FormatsCollisionFree
      (forwarded_formats (format_session fs (LogReader.init cat n0)).trace) := by
  obtain ⟨a1, hist1, inv1, hview⟩ := format_session_inv hlow hinj fs 0 [] _
    (RemapInv.init cat n0) (by simp [forwarded_formats, LogReader.init]) (by omega)
    (fun x hx => by cases hx) hone
  intro g1 hg1 g2 hg2 hne heq
  have m1 : (fmt_name g1, g1.type) ∈ hist1.map (fun x => (x.name, x.outtype)) := by
    rw [← hview]; exact List.mem_map_of_mem _ hg1
  have m2 : (fmt_name g2, g2.type) ∈ hist1.map (fun x => (x.name, x.outtype)) := by
    rw [← hview]; exact List.mem_map_of_mem _ hg2
  obtain ⟨x, hx, hxe⟩ := List.mem_map.mp m1
  obtain ⟨y, hy, hye⟩ := List.mem_map.mp m2
  simp only [Prod.mk.injEq] at hxe hye
  refine inv1.distinct x hx y hy ?_ ?_
  · rw [hxe.1, hye.1]; exact hne
  · rw [hxe.2, hye.2]; exact heq

/-- C2 amended, at a session of five Format records from the counter 254 with "GPS" in
the structure list: "GPS" takes the id of the list, "EKF1" is generated and "IMU" is
declared twice, so only two ids are allocated (254 and 255) and the counter does not
wrap before the last allocation. -/
theorem format_session_collision_free_witness :
    254 + format_session_allocations
      [⟨3, 40, "GPS".toList, []⟩, ⟨4, 30, "IMU".toList, []⟩, ⟨5, 20, "EKF1".toList, []⟩,
       ⟨4, 30, "IMU".toList, []⟩, ⟨6, 10, "BARO".toList, []⟩]
      (LogReader.init [⟨130, "GPS"⟩] 254) = 256 ∧
    FormatsCollisionFree (forwarded_formats (format_session
      [⟨3, 40, "GPS".toList, []⟩, ⟨4, 30, "IMU".toList, []⟩, ⟨5, 20, "EKF1".toList, []⟩,
       ⟨4, 30, "IMU".toList, []⟩, ⟨6, 10, "BARO".toList, []⟩]
      (LogReader.init [⟨130, "GPS"⟩] 254)).trace) :=
  ⟨by decide,
   format_session_collision_free [⟨130, "GPS"⟩] 254
     [⟨3, 40, "GPS".toList, []⟩, ⟨4, 30, "IMU".toList, []⟩, ⟨5, 20, "EKF1".toList, []⟩,
      ⟨4, 30, "IMU".toList, []⟩, ⟨6, 10, "BARO".toList, []⟩]
     (by decide) (by decide) (by decide) (by decide)⟩

/-! ## C3: collisions of outgoing ids over calls of `map_fmt_type` -/

/-- C3 as stated fails, in four ways.
(1) An id declared again under another name keeps its mapping, and a name of the
structure list gets the id of the list under every incoming id: "GPS" under 3, "IMU"
under 3, "GPS" under 4 are all answered 130.
(2) The 8-bit counter wraps: started at 255, it gives 255, 0, 1, and the 1 is the id
the structure list has for "GPS".
(3) The structure list holds the id the counter starts at.
(4) The structure list holds two names with one id. -/
theorem map_calls_collide :
    (map_calls [("GPS", 3), ("IMU", 3), ("GPS", 4)] (LogReader.init [⟨130, "GPS"⟩] 200) =
        [⟨"GPS", 3, 130⟩, ⟨"IMU", 3, 130⟩, ⟨"GPS", 4, 130⟩] ∧
      ¬ CallsCollisionFree
        (map_calls [("GPS", 3), ("IMU", 3), ("GPS", 4)] (LogReader.init [⟨130, "GPS"⟩] 200))) ∧
    (map_calls [("ATT", 1), ("BARO", 2), ("MAG", 3), ("GPS", 4)]
        (LogReader.init [⟨1, "GPS"⟩] 255) =
        [⟨"ATT", 1, 255⟩, ⟨"BARO", 2, 0⟩, ⟨"MAG", 3, 1⟩, ⟨"GPS", 4, 1⟩] ∧
      ¬ CallsCollisionFree
        (map_calls [("ATT", 1), ("BARO", 2), ("MAG", 3), ("GPS", 4)]
          (LogReader.init [⟨1, "GPS"⟩] 255))) ∧
    (map_calls [("IMU", 1), ("GPS", 2)] (LogReader.init [⟨200, "GPS"⟩] 200) =
        [⟨"IMU", 1, 200⟩, ⟨"GPS", 2, 200⟩] ∧
      ¬ CallsCollisionFree
        (map_calls [("IMU", 1), ("GPS", 2)] (LogReader.init [⟨200, "GPS"⟩] 200))) ∧
    (map_calls [("IMU", 1), ("GPS", 2)] (LogReader.init [⟨5, "GPS"⟩, ⟨5, "IMU"⟩] 200) =
        [⟨"IMU", 1, 5⟩, ⟨"GPS", 2, 5⟩] ∧
      ¬ CallsCollisionFree
        (map_calls [("IMU", 1), ("GPS", 2)] (LogReader.init [⟨5, "GPS"⟩, ⟨5, "IMU"⟩] 200))) := by
  have e1 : map_calls [("GPS", 3), ("IMU", 3), ("GPS", 4)] (LogReader.init [⟨130, "GPS"⟩] 200) =
      [⟨"GPS", 3, 130⟩, ⟨"IMU", 3, 130⟩, ⟨"GPS", 4, 130⟩] := by decide
  have e2 : map_calls [("ATT", 1), ("BARO", 2), ("MAG", 3), ("GPS", 4)]
      (LogReader.init [⟨1, "GPS"⟩] 255) =
      [⟨"ATT", 1, 255⟩, ⟨"BARO", 2, 0⟩, ⟨"MAG", 3, 1⟩, ⟨"GPS", 4, 1⟩] := by decide
  have e3 : map_calls [("IMU", 1), ("GPS", 2)] (LogReader.init [⟨200, "GPS"⟩] 200) =
      [⟨"IMU", 1, 200⟩, ⟨"GPS", 2, 200⟩] := by decide
  have e4 : map_calls [("IMU", 1), ("GPS", 2)]
      (LogReader.init [⟨5, "GPS"⟩, ⟨5, "IMU"⟩] 200) =
      [⟨"IMU", 1, 5⟩, ⟨"GPS", 2, 5⟩] := by decide
  refine ⟨⟨e1, ?_⟩, ⟨e2, ?_⟩, ⟨e3, ?_⟩, ⟨e4, ?_⟩⟩
  · rw [e1]
    exact fun h => h ⟨"IMU", 3, 130⟩ (by decide) ⟨"GPS", 4, 130⟩ (by decide) (by decide)
      (by decide) rfl
  · rw [e2]
    exact fun h => h ⟨"MAG", 3, 1⟩ (by decide) ⟨"GPS", 4, 1⟩ (by decide) (by decide)
      (by decide) rfl
  · rw [e3]
    exact fun h => h ⟨"IMU", 1, 200⟩ (by decide) ⟨"GPS", 2, 200⟩ (by decide) (by decide)
      (by decide) rfl
  · rw [e4]
    exact fun h => h ⟨"IMU", 1, 5⟩ (by decide) ⟨"GPS", 2, 5⟩ (by decide) (by decide)
      (by decide) rfl

/-- C3, amended: from the initial state, when every id of the structure list is below the
start value of the counter, different names of the structure list have different ids,
the counter does not wrap (the start value plus the number of ids that the calls
allocate is at most 256; a call for a name of the structure list or for an incoming id
that is already mapped allocates nothing) and no incoming id is used with two names, two
calls of `map_fmt_type` with distinct incoming ids and different names are never given
the same outgoing id.  (Indeed two calls with different names are never given the same
outgoing id.) -/
theorem map_calls_collision_free (cat : List LogStructure) (n0 : Nat)
    (cs : List (String × Nat))
    (hlow : ∀ e ∈ cat, e.msg_type < n0)
    (hinj : ∀ e1 ∈ cat, ∀ e2 ∈ cat, e1.name ≠ e2.name → e1.msg_type ≠ e2.msg_type)
    (hroom : n0 + map_calls_allocations cs (LogReader.init cat n0) ≤ 256)
    (hone : ∀ c1 ∈ cs, ∀ c2 ∈ cs, c1.2 = c2.2 → c1.1 = c2.1) :
    CallsCollisionFree (map_calls cs (LogReader.init cat n0)) ∧
    ∀ x ∈ map_calls cs (LogReader.init cat n0), ∀ y ∈ map_calls cs (LogReader.init cat n0),
      x.name ≠ y.name → x.outtype ≠ y.outtype := by
  have main : ∀ x ∈ map_calls cs (LogReader.init cat n0),
      ∀ y ∈ map_calls cs (LogReader.init cat n0), x.name ≠ y.name → x.outtype ≠ y.outtype := by
    have := map_calls_distinct hlow hinj cs 0 [] _ (RemapInv.init cat n0) (by omega)
      (fun x hx => by cases hx) hone
    simpa using this
  exact ⟨fun x hx y hy _ hne => main x hx y hy hne, main⟩

/-- C3 amended, at four calls from the counter 254 with "GPS" in the structure list:
"GPS" takes the id of the list and "IMU" is asked for twice, so only two ids are
allocated (254 and 255) and the counter does not wrap before the last allocation. -/
theorem map_calls_collision_free_witness :
    254 + map_calls_allocations [("GPS", 3), ("IMU", 4), ("IMU", 4), ("BARO", 5)]
      (LogReader.init [⟨130, "GPS"⟩] 254) = 256 ∧
    CallsCollisionFree
      (map_calls [("GPS", 3), ("IMU", 4), ("IMU", 4), ("BARO", 5)]
        (LogReader.init [⟨130, "GPS"⟩] 254)) :=
  ⟨by decide,
   (map_calls_collision_free [⟨130, "GPS"⟩] 254
      [("GPS", 3), ("IMU", 4), ("IMU", 4), ("BARO", 5)]
      (by decide) (by decide) (by decide) (by decide)).1⟩

/-! ## C4: does a mapping, once set, stay? -/

/-- The function `map_fmt_type` does not touch an entry of `mapped_msgid` that is set
(not 0). -/
theorem map_fmt_type_keeps_set (name : String) (intype id : Nat) (s : LogReader)
    (h : s.mapped_msgid id ≠ 0) :
    (map_fmt_type name intype s).2.mapped_msgid id = s.mapped_msgid id := by
  unfold map_fmt_type
  by_cases hz : s.mapped_msgid intype = 0
  · have hne : id ≠ intype := fun he => h (he ▸ hz)
    cases hf : find_structure name s.structure_ <;> simp [hz, Function.update_noteq hne]
  · simp [hz]

/-- The function `handle_log_format_msg` does not touch an entry of `mapped_msgid` that
is set. -/
theorem handle_log_format_msg_keeps_set (f : log_Format) (id : Nat) (s : LogReader)
    (h : s.mapped_msgid id ≠ 0) :
    (handle_log_format_msg f s).2.mapped_msgid id = s.mapped_msgid id := by
  simp only [handle_log_format_msg, (install_by_name_frame f (forward_format f s)).2.1]
  unfold forward_format
  by_cases hin : in_list (fmt_name f) generated_names = false
  · simpa [hin] using map_fmt_type_keeps_set (fmt_name f) f.type id s h
  · simp [hin]

/-- The function `handle_msg` never writes `mapped_msgid`, whether it returns or exits. -/
theorem handle_msg_mapped_msgid (E : Externals) (f : log_Format) (msg : List Nat)
    (s : LogReader) :
    (∀ h, handle_msg E f msg s = Except.error h → h.s.mapped_msgid = s.mapped_msgid) ∧
    (∀ r, handle_msg E f msg s = Except.ok r → r.2.2.mapped_msgid = s.mapped_msgid) := by
  unfold handle_msg
  cases hfw : forward_msg f msg s with
  | error h0 =>
    refine ⟨fun h hh => ?_, fun r hr => by cases hr⟩
    cases hh
    unfold forward_msg at hfw
    split at hfw
    · split at hfw
      · cases hfw; rfl
      · cases hfw
    · cases hfw
  | ok r0 =>
    refine ⟨fun h hh => (by cases hh), fun r hr => ?_⟩
    cases hr
    have h1 := (process_msg_frame E f r0.1 r0.2).1
    simp only [h1]
    unfold forward_msg at hfw
    split at hfw
    · split at hfw
      · cases hfw
      · cases hfw; rfl
    · cases hfw; rfl

/-- One operation does not change an entry of `mapped_msgid` that is set. -/
theorem Op.apply_keeps_set (E : Externals) (op : Op) (id : Nat) (s : LogReader)
    (h : s.mapped_msgid id ≠ 0) :
    (∀ h1, Op.apply E op s = Except.error h1 → h1.s.mapped_msgid id = s.mapped_msgid id) ∧
    (∀ s1, Op.apply E op s = Except.ok s1 → s1.mapped_msgid id = s.mapped_msgid id) := by
  cases op with
  | map name intype =>
    refine ⟨fun h1 hh => (by cases hh), fun s1 hs => ?_⟩
    cases hs
    exact map_fmt_type_keeps_set name intype id s h
  | format f =>
    refine ⟨fun h1 hh => (by cases hh), fun s1 hs => ?_⟩
    cases hs
    exact handle_log_format_msg_keeps_set f id s h
  | data f m =>
    obtain ⟨he, ho⟩ := handle_msg_mapped_msgid E f m s
    simp only [Op.apply]
    cases hm : handle_msg E f m s with
    | error h0 =>
      refine ⟨fun h1 hh => ?_, fun s1 hs => by cases hs⟩
      cases hh
      rw [he h0 hm]
    | ok r =>
      refine ⟨fun h1 hh => (by cases hh), fun s1 hs => ?_⟩
      cases hs
      rw [ho r hm]
  | install =>
    refine ⟨fun h1 hh => (by cases hh), fun s1 hs => ?_⟩
    cases hs
    rw [(maybe_install_frame E s).2.1]

/-- An entry of `mapped_msgid` that holds an id other than 0 (the value that stands
for "no mapping") is not changed by any later sequence of operations:
calls of `map_fmt_type`, `handle_log_format_msg`, `handle_msg` and
`maybe_install_vehicle_specific_parsers`, with any arguments, up to the end of the
sequence or to the exit of the process. -/
theorem mapped_msgid_stable (E : Externals) (ops : List Op) (id : Nat) (s : LogReader)
    (h : s.mapped_msgid id ≠ 0) :
    (run E ops s).mapped_msgid id = s.mapped_msgid id := by
  induction ops generalizing s with
  | nil => rfl
  | cons op rest ih =>
    obtain ⟨he, ho⟩ := Op.apply_keeps_set E op id s h
    simp only [run]
    cases hop : Op.apply E op s with
    | error h1 => exact he h1 hop
    | ok s1 =>
      have h1 := ho s1 hop
      simp only []
      rw [ih s1 (by rw [h1]; exact h), h1]

/-- The entry of id 3, set to 200 by a "GPS" Format record, under a later "IMU" Format
record of the same id 3, a message of that type and a run of the installer. -/
theorem mapped_msgid_stable_witness :
    (handle_log_format_msg ⟨3, 5, "GPS".toList, []⟩
      (LogReader.init [] 200)).2.mapped_msgid 3 ≠ 0 ∧
    (run ⟨255, fun _ _ x => x, fun _ _ _ => true⟩
      [Op.format ⟨3, 5, "IMU".toList, []⟩, Op.map "BARO" 3,
       Op.data ⟨3, 5, "IMU".toList, []⟩ [163, 149, 3, 0, 0], Op.install]
      (handle_log_format_msg ⟨3, 5, "GPS".toList, []⟩
        (LogReader.init [] 200)).2).mapped_msgid 3 = 200 :=
  ⟨by decide,
   mapped_msgid_stable ⟨255, fun _ _ x => x, fun _ _ _ => true⟩ _ 3
     (handle_log_format_msg ⟨3, 5, "GPS".toList, []⟩ (LogReader.init [] 200)).2
     (by decide)⟩

/-- C4, at the failing input: in the state after an "IMU" Format record of type 2 from
the initial state with the counter at 255 (the counter has wrapped to 0), a "GPS"
Format record of type 3 is handled.  This declaration sets the entry of type 3: it
records the id 0 and forwards the format header with type 0.  Handling the same Format
record again changes the entry to 1, and the header is forwarded with type 1. -/
theorem mapped_msgid_changes_after_zero :
    (format_session [⟨2, 4, "IMU".toList, []⟩] (LogReader.init [] 255)).next_msgid = 0 ∧
    (handle_log_format_msg ⟨3, 4, "GPS".toList, []⟩
      (format_session [⟨2, 4, "IMU".toList, []⟩] (LogReader.init [] 255))).2.mapped_msgid 3 = 0 ∧
    (run copter_externals [Op.format ⟨3, 4, "GPS".toList, []⟩]
      (handle_log_format_msg ⟨3, 4, "GPS".toList, []⟩
        (format_session [⟨2, 4, "IMU".toList, []⟩]
          (LogReader.init [] 255))).2).mapped_msgid 3 = 1 ∧
    forwarded_formats (run copter_externals [Op.format ⟨3, 4, "GPS".toList, []⟩]
      (handle_log_format_msg ⟨3, 4, "GPS".toList, []⟩
        (format_session [⟨2, 4, "IMU".toList, []⟩] (LogReader.init [] 255))).2).trace =
      [⟨255, 4, "IMU".toList, []⟩, ⟨0, 4, "GPS".toList, []⟩, ⟨1, 4, "GPS".toList, []⟩] := by
  decide

/-! ## C5: when `handle_msg` exits -/

/-- C5: `handle_msg` exits exactly when the name is not one of `generated_names` and
the type byte `msg[2]` has no mapping.  It exits with status 1, the message buffer as
it was given, and nothing but the `printf` of the diagnostic added to what the reader
has done: no block written, the clock not stopped, no handler called, every member
unchanged. -/
theorem handle_msg_exit_iff (E : Externals) (f : log_Format) (msg : List Nat)
    (s : LogReader) :
    ((∃ h, handle_msg E f msg s = Except.error h) ↔
      (fmt_name f ∉ generated_names ∧ s.mapped_msgid (msg_type_byte msg) = 0)) ∧
    (∀ h, handle_msg E f msg s = Except.error h →
      h.status = 1 ∧ h.msg = msg ∧
      h.s = { s with
        trace := s.trace ++ [Event.printf "Unknown msgid %u\n" [msg_type_byte msg]] } ∧
      sink_writes h.s.trace = sink_writes s.trace ∧
      clock_stops h.s.trace = clock_stops s.trace ∧
      parser_calls h.s.trace = parser_calls s.trace) := by
  unfold handle_msg forward_msg
  by_cases hin : in_list (fmt_name f) generated_names = false
  · have hnot := (in_list_false_iff _ _).mp hin
    by_cases hz : s.mapped_msgid (msg_type_byte msg) = 0
    · simp only [hin, hz, if_true]
      refine ⟨⟨fun _ => ⟨hnot, trivial⟩, fun _ => ⟨_, rfl⟩⟩, ?_⟩
      intro h hh
      cases hh
      simp [sink_writes, clock_stops, parser_calls]
    · simp [hin, hz]
  · have hin2 : ¬ fmt_name f ∉ generated_names := fun h => hin ((in_list_false_iff _ _).mpr h)
    simp [hin, hin2]

/-- C5 at an "IMU" message of type 9 in the initial state, where no id is mapped: the
process exits. -/
theorem handle_msg_exit_iff_witness :
    ∃ h, handle_msg ⟨255, fun _ _ x => x, fun _ _ _ => true⟩
      ⟨9, 5, "IMU".toList, []⟩ [163, 149, 9, 0, 0] (LogReader.init [] 200) = Except.error h :=
  (handle_msg_exit_iff ⟨255, fun _ _ x => x, fun _ _ _ => true⟩
    ⟨9, 5, "IMU".toList, []⟩ [163, 149, 9, 0, 0] (LogReader.init [] 200)).1.mpr
    ⟨by decide, rfl⟩


/-! ## C6: the format header that is forwarded -/

/-- C6: for a Format record whose name is not one of `generated_names`,
`handle_log_format_msg` issues exactly one call: it writes one block, the record `f`
with only `type` replaced by what `map_fmt_type(name, f.type)` returns.  The length,
the name and the field layout of the block are those of `f`. -/
theorem handle_log_format_msg_forwards (f : log_Format) (s : LogReader)
    (h : fmt_name f ∉ generated_names) :
    (handle_log_format_msg f s).2.trace =
      s.trace ++ [Event.WriteBlock (Block.format
        { type := (map_fmt_type (fmt_name f) f.type s).1
          length := f.length
          name := f.name
          field_layout := f.field_layout })] ∧
    sink_writes (handle_log_format_msg f s).2.trace =
      sink_writes s.trace ++ [Block.format
        { f with type := (map_fmt_type (fmt_name f) f.type s).1 }] := by
  have hin := (in_list_false_iff _ _).mpr h
  have h1 := (install_by_name_frame f (forward_format f s)).1
  have h2 := (map_fmt_type_frame (fmt_name f) f.type s).1
  simp only [handle_log_format_msg, h1]
  simp [forward_format, hin, h2, sink_writes]

/-- C6 at a "GPS" record of type 3, with the counter at 200. -/
theorem handle_log_format_msg_forwards_witness :
    fmt_name ⟨3, 40, "GPS".toList, [1, 2]⟩ ∉ generated_names ∧
    (handle_log_format_msg ⟨3, 40, "GPS".toList, [1, 2]⟩ (LogReader.init [] 200)).2.trace =
      [Event.WriteBlock (Block.format ⟨200, 40, "GPS".toList, [1, 2]⟩)] :=
  ⟨by decide,
   (handle_log_format_msg_forwards ⟨3, 40, "GPS".toList, [1, 2]⟩ (LogReader.init [] 200)
      (by decide)).1⟩

/-! ## C7: the order of the rules of `map_fmt_type` -/

/-- C7: for an incoming id without a mapping, (1) if some entry of the structure list
has the name, the id returned is the `msg_type` of the first such entry, it is recorded
for the incoming id and the counter is unchanged; (2) if no entry has the name, the id
returned is the current `next_msgid`, it is recorded for the incoming id and the
counter is advanced by one (as an 8-bit value: 255 is followed by 0). -/
theorem map_fmt_type_rule_order (name : String) (intype : Nat) (s : LogReader)
    (h : s.mapped_msgid intype = 0) :
    (∀ e, s.structure_.find? (fun x => decide (x.name = name)) = some e →
      (map_fmt_type name intype s).1 = e.msg_type ∧
      (map_fmt_type name intype s).2.mapped_msgid intype = e.msg_type ∧
      (map_fmt_type name intype s).2.next_msgid = s.next_msgid) ∧
    ((∀ e ∈ s.structure_, e.name ≠ name) →
      (map_fmt_type name intype s).1 = s.next_msgid ∧
      (map_fmt_type name intype s).2.mapped_msgid intype = s.next_msgid ∧
      (map_fmt_type name intype s).2.next_msgid = (s.next_msgid + 1) % 256 ∧
      (s.next_msgid < 255 → (map_fmt_type name intype s).2.next_msgid = s.next_msgid + 1)) := by
  constructor
  · intro e he
    have hf : find_structure name s.structure_ = some e.msg_type := by
      rw [find_structure_eq_find, he]; rfl
    simp [map_fmt_type, h, hf]
  · intro hall
    have hf := (find_structure_none_iff name s.structure_).mpr hall
    simp only [map_fmt_type, h, hf, ne_eq, not_true_eq_false, if_false, Function.update_same,
      true_and]
    intro hlt
    exact Nat.mod_eq_of_lt (by omega)

/-- C7 at "GPS" with incoming id 3, no "GPS" in the structure list and the counter at
200: the id returned is 200 and the counter moves to 201. -/
theorem map_fmt_type_rule_order_witness :
    (LogReader.init [⟨130, "IMU"⟩] 200).mapped_msgid 3 = 0 ∧
    (map_fmt_type "GPS" 3 (LogReader.init [⟨130, "IMU"⟩] 200)).1 = 200 ∧
    (map_fmt_type "GPS" 3 (LogReader.init [⟨130, "IMU"⟩] 200)).2.mapped_msgid 3 = 200 ∧
    (map_fmt_type "GPS" 3 (LogReader.init [⟨130, "IMU"⟩] 200)).2.next_msgid = 201 ∧
    (map_fmt_type "IMU" 4 (LogReader.init [⟨130, "IMU"⟩] 200)).1 = 130 :=
  ⟨rfl,
   ((map_fmt_type_rule_order "GPS" 3 (LogReader.init [⟨130, "IMU"⟩] 200) rfl).2
      (by decide)).1,
   ((map_fmt_type_rule_order "GPS" 3 (LogReader.init [⟨130, "IMU"⟩] 200) rfl).2
      (by decide)).2.1,
   ((map_fmt_type_rule_order "GPS" 3 (LogReader.init [⟨130, "IMU"⟩] 200) rfl).2
      (by decide)).2.2.1,
   ((map_fmt_type_rule_order "IMU" 4 (LogReader.init [⟨130, "IMU"⟩] 200) rfl).1
      ⟨130, "IMU"⟩ (by decide)).1⟩


/-! ## C8: records of generated names are not forwarded -/

/-- C8: for a record whose name is one of EKF1, EKF2, EKF3, EKF4, EKF5, AHR2, POS,
(1) `handle_log_format_msg` issues no call at all (nothing written, the clock not
stopped) and leaves `mapped_msgid` and `next_msgid` as they were; (2) `handle_msg` does
not exit, returns true with the message buffer as it was given, writes no block, does
not stop the clock, and leaves `mapped_msgid` and `next_msgid` as they were. -/
theorem generated_names_not_forwarded (E : Externals) (f : log_Format) (msg : List Nat)
    (s : LogReader)
    (h : fmt_name f ∈ ["EKF1", "EKF2", "EKF3", "EKF4", "EKF5", "AHR2", "POS"]) :
    ((handle_log_format_msg f s).2.trace = s.trace ∧
      sink_writes (handle_log_format_msg f s).2.trace = sink_writes s.trace ∧
      clock_stops (handle_log_format_msg f s).2.trace = clock_stops s.trace ∧
      (handle_log_format_msg f s).2.mapped_msgid = s.mapped_msgid ∧
      (handle_log_format_msg f s).2.next_msgid = s.next_msgid) ∧
    (∃ s1, handle_msg E f msg s = Except.ok (true, msg, s1) ∧
      sink_writes s1.trace = sink_writes s.trace ∧
      clock_stops s1.trace = clock_stops s.trace ∧
      s1.mapped_msgid = s.mapped_msgid ∧
      s1.next_msgid = s.next_msgid) := by
  have hin : in_list (fmt_name f) generated_names = true := (in_list_iff _ _).mpr h
  constructor
  · obtain ⟨h1, h2, h3, _⟩ := install_by_name_frame f (forward_format f s)
    have hs : forward_format f s = s := by simp [forward_format, hin]
    rw [hs] at h1 h2 h3
    simp [handle_log_format_msg, hs, h1, h2, h3]
  · obtain ⟨h1, h2, _, h4, h5⟩ := process_msg_frame E f msg s
    exact ⟨process_msg E f msg s, by simp [handle_msg, forward_msg, hin], h4, h5, h1, h2⟩

/-- C8 at an "AHR2" record of type 5 after its Format record was handled: the handler
bound to type 5 is run, nothing is written and the clock is not stopped. -/
theorem generated_names_not_forwarded_witness :
    fmt_name ⟨5, 4, "AHR2".toList, []⟩ ∈
      ["EKF1", "EKF2", "EKF3", "EKF4", "EKF5", "AHR2", "POS"] ∧
    ∃ s1, handle_msg ⟨255, fun _ _ x => x, fun _ _ _ => true⟩ ⟨5, 4, "AHR2".toList, []⟩
        [163, 149, 5, 7]
        (handle_log_format_msg ⟨5, 4, "AHR2".toList, []⟩ (LogReader.init [] 200)).2 =
          Except.ok (true, [163, 149, 5, 7], s1) ∧
      sink_writes s1.trace = [] ∧ clock_stops s1.trace = [] :=
  ⟨by decide,
   (generated_names_not_forwarded ⟨255, fun _ _ x => x, fun _ _ _ => true⟩
      ⟨5, 4, "AHR2".toList, []⟩ [163, 149, 5, 7]
      (handle_log_format_msg ⟨5, 4, "AHR2".toList, []⟩ (LogReader.init [] 200)).2
      (by decide)).2.imp
    (fun _ hs => ⟨hs.1, hs.2.1, hs.2.2.1⟩)⟩

/-! ## C9: handlers of generated names -/

/-- C9 as stated fails: an "AHR2" Format record of type 5 is a record of a generated
name, and handling it binds an AHR2 handler to type 5, which had none. -/
theorem generated_name_AHR2_gets_handler :
    fmt_name ⟨5, 4, "AHR2".toList, []⟩ ∈ generated_names ∧
    (LogReader.init [] 200).msgparser 5 = none ∧
    (handle_log_format_msg ⟨5, 4, "AHR2".toList, []⟩ (LogReader.init [] 200)).2.msgparser 5 =
      some ⟨HandlerClass.AHR2, log_Format.zero, 0⟩ := by
  decide

/-- C9, amended: for a Format record whose name is one of EKF1, EKF2, EKF3, EKF4, EKF5,
POS, the whole handler table is left as it was (and so are the parameter handler and
the deferred table); for the name AHR2 an AHR2 handler built from `formats[f.type]` is
bound to `f.type` and every other entry of the table is left as it was. -/
theorem generated_names_handler (f : log_Format) (s : LogReader)
    (h : fmt_name f ∈ generated_names) :
    (fmt_name f ≠ "AHR2" →
      (handle_log_format_msg f s).2.msgparser = s.msgparser ∧
      (handle_log_format_msg f s).2.parameter_handler = s.parameter_handler ∧
      (handle_log_format_msg f s).2.deferred_formats = s.deferred_formats) ∧
    (fmt_name f = "AHR2" →
      (handle_log_format_msg f s).2.msgparser f.type =
        some ⟨HandlerClass.AHR2, s.formats f.type, s.heap⟩ ∧
      ∀ t, t ≠ f.type → (handle_log_format_msg f s).2.msgparser t = s.msgparser t) := by
  have hin : in_list (fmt_name f) generated_names = true := (in_list_iff _ _).mpr h
  have hs : forward_format f s = s := by simp [forward_format, hin]
  simp only [handle_log_format_msg, hs, install_by_name]
  simp only [generated_names, List.mem_cons, List.mem_singleton, List.not_mem_nil,
    or_false] at h
  rcases h with h | h | h | h | h | h | h <;> rw [h] <;> constructor <;> intro hne <;>
    first
    | exact absurd rfl hne
    | exact absurd hne (by decide)
    | (refine ⟨rfl, rfl, rfl⟩)
    | (refine ⟨?_, ?_⟩
       · show Function.update s.msgparser f.type _ f.type = _
         rw [Function.update_same]
       · intro t ht
         show Function.update s.msgparser f.type _ t = _
         rw [Function.update_noteq ht])

/-- C9 amended, at an "EKF1" record of type 5 (no handler is bound) . -/
theorem generated_names_handler_witness :
    fmt_name ⟨5, 4, "EKF1".toList, []⟩ ∈ generated_names ∧
    (handle_log_format_msg ⟨5, 4, "EKF1".toList, []⟩ (LogReader.init [] 200)).2.msgparser =
      (LogReader.init [] 200).msgparser :=
  ⟨by decide,
   ((generated_names_handler ⟨5, 4, "EKF1".toList, []⟩ (LogReader.init [] 200)
      (by decide)).1 (by decide)).1⟩

/-! ## C10: the installer runs once -/

/-- C10: where `installed_vehicle_specific_parsers` is true the installer returns the
state it was given, whatever the vehicle and whatever the deferred table holds:
`msgparser`, `deferred_formats`, the flag and every other member are unchanged.  And in
every state, calling it twice leaves the state that calling it once leaves. -/
theorem maybe_install_runs_once (E : Externals) (s : LogReader) :
    (s.installed_vehicle_specific_parsers = true →
      maybe_install_vehicle_specific_parsers E s = s) ∧
    maybe_install_vehicle_specific_parsers E (maybe_install_vehicle_specific_parsers E s) =
      maybe_install_vehicle_specific_parsers E s := by
  have key : ∀ t : LogReader, t.installed_vehicle_specific_parsers = true →
      maybe_install_vehicle_specific_parsers E t = t := by
    intro t ht
    simp [maybe_install_vehicle_specific_parsers, ht]
  refine ⟨key s, ?_⟩
  by_cases h : s.installed_vehicle_specific_parsers = false ∧
      s.vehicle ≠ VehicleType.VEHICLE_UNKNOWN
  · apply key
    simp [maybe_install_vehicle_specific_parsers, h]
  · have hs : maybe_install_vehicle_specific_parsers E s = s := by
      unfold maybe_install_vehicle_specific_parsers
      rw [if_neg h]
    rw [hs, hs]

/-- C10 after a first run for a copter with an "NTUN" format deferred under type 7, and
a second "NTUN" format deferred under type 8 afterwards: the second run changes
nothing, type 8 stays without a handler. -/
theorem maybe_install_runs_once_witness :
    (maybe_install_vehicle_specific_parsers ⟨255, fun _ _ x => x, fun _ _ _ => true⟩
      { LogReader.init [] 200 with
        vehicle := VehicleType.VEHICLE_COPTER
        deferred_formats := Function.update (fun _ => log_Format.zero) 7
          ⟨7, 9, "NTUN".toList, []⟩ }).installed_vehicle_specific_parsers = true ∧
    maybe_install_vehicle_specific_parsers ⟨255, fun _ _ x => x, fun _ _ _ => true⟩
      { maybe_install_vehicle_specific_parsers ⟨255, fun _ _ x => x, fun _ _ _ => true⟩
          { LogReader.init [] 200 with
            vehicle := VehicleType.VEHICLE_COPTER
            deferred_formats := Function.update (fun _ => log_Format.zero) 7
              ⟨7, 9, "NTUN".toList, []⟩ } with
        deferred_formats := Function.update (fun _ => log_Format.zero) 8
          ⟨8, 9, "NTUN".toList, []⟩ } =
      { maybe_install_vehicle_specific_parsers ⟨255, fun _ _ x => x, fun _ _ _ => true⟩
          { LogReader.init [] 200 with
            vehicle := VehicleType.VEHICLE_COPTER
            deferred_formats := Function.update (fun _ => log_Format.zero) 7
              ⟨7, 9, "NTUN".toList, []⟩ } with
        deferred_formats := Function.update (fun _ => log_Format.zero) 8
          ⟨8, 9, "NTUN".toList, []⟩ } :=
  ⟨by simp [maybe_install_vehicle_specific_parsers, LogReader.init],
   (maybe_install_runs_once _ _).1
    (by simp [maybe_install_vehicle_specific_parsers, LogReader.init])⟩


/-! ## C11: an "NTUN" format is deferred -/

/-- C11: for a Format record named "NTUN" with type id `t = f.type`, in every state,
`handle_log_format_msg` stores the registered format `formats[t]` as the deferred
entry of `t`, whatever that entry held, leaves every other deferred entry as it was,
and leaves the handler table and the parameter handler as they were. -/
theorem ntun_format_deferred (f : log_Format) (s : LogReader) (h : fmt_name f = "NTUN") :
    (handle_log_format_msg f s).2.deferred_formats f.type = s.formats f.type ∧
    (∀ t, t ≠ f.type →
      (handle_log_format_msg f s).2.deferred_formats t = s.deferred_formats t) ∧
    (handle_log_format_msg f s).2.msgparser = s.msgparser ∧
    (handle_log_format_msg f s).2.parameter_handler = s.parameter_handler := by
  have hd : dispatch (fmt_name f) = Dispatch.deferred := by rw [h]; decide
  obtain ⟨h1, h2, h3⟩ := (handle_log_format_msg_dispatch f s).2.2.1 hd
  refine ⟨?_, fun t ht => ?_, h1, h2⟩
  · rw [h3, Function.update_same]
  · rw [h3, Function.update_noteq ht]

/-- C11 at an "NTUN" record of type 7, registered, in a state where type 7 already has
a deferred entry: the entry is overwritten with the registered format. -/
theorem ntun_format_deferred_witness :
    fmt_name ⟨7, 9, "NTUN".toList, [1]⟩ = "NTUN" ∧
    (handle_log_format_msg ⟨7, 9, "NTUN".toList, [1]⟩
      { LogReader.init [] 200 with
        formats := Function.update (fun _ => log_Format.zero) 7 ⟨7, 9, "NTUN".toList, [1]⟩
        deferred_formats := Function.update (fun _ => log_Format.zero) 7
          ⟨7, 5, "NTUN".toList, []⟩ }).2.deferred_formats 7 = ⟨7, 9, "NTUN".toList, [1]⟩ :=
  ⟨by decide,
   (ntun_format_deferred ⟨7, 9, "NTUN".toList, [1]⟩
      { LogReader.init [] 200 with
        formats := Function.update (fun _ => log_Format.zero) 7 ⟨7, 9, "NTUN".toList, [1]⟩
        deferred_formats := Function.update (fun _ => log_Format.zero) 7
          ⟨7, 5, "NTUN".toList, []⟩ } (by decide)).1⟩

/-! ## C12: what the installer binds for a copter -/

/-- The copter loop over the type ids of `l`: an id of `l` whose deferred entry has a
`type` other than 0 is bound to a copter NTUN handler built from that entry; every
other binding is left as it was. -/
theorem foldl_install_copter_at_msgparser (l : List Nat) :
    ∀ s : LogReader,
      (∀ t, t ∈ l → (s.deferred_formats t).type ≠ 0 →
        ∃ a, (l.foldl install_copter_at s).msgparser t =
          some ⟨HandlerClass.NTUN_Copter, s.deferred_formats t, a⟩) ∧
      (∀ t, t ∉ l ∨ (s.deferred_formats t).type = 0 →
        (l.foldl install_copter_at s).msgparser t = s.msgparser t) := by
  induction l with
  | nil =>
    intro s
    exact ⟨fun t ht => (by cases ht), fun t _ => rfl⟩
  | cons i rest ih =>
    intro s
    have hdef : (install_copter_at s i).deferred_formats = s.deferred_formats := by
      unfold install_copter_at
      split <;> rfl
    obtain ⟨ih1, ih2⟩ := ih (install_copter_at s i)
    rw [hdef] at ih1 ih2
    simp only [List.foldl_cons]
    constructor
    · intro t ht hne
      by_cases hr : t ∈ rest
      · exact ih1 t hr hne
      · have hti : t = i := by
          rcases List.mem_cons.mp ht with h | h
          · exact h
          · exact absurd h hr
        subst hti
        rw [ih2 t (Or.inl hr)]
        exact ⟨s.heap, by simp [install_copter_at, hne]⟩
    · intro t ht
      have hrest : t ∉ rest ∨ (s.deferred_formats t).type = 0 := by
        rcases ht with h | h
        · exact Or.inl (fun hm => h (List.mem_cons_of_mem _ hm))
        · exact Or.inr h
      rw [ih2 t hrest]
      unfold install_copter_at
      by_cases hz : (s.deferred_formats i).type = 0
      · simp [hz]
      · have hti : t ≠ i := by
          rintro rfl
          rcases ht with h | h
          · exact h (List.mem_cons_self _ _)
          · exact hz h
        simp [hz, Function.update_noteq hti]

/-- For a copter, when the installer has not run: a type id below
`LOGREADER_MAX_FORMATS` whose deferred entry has a `type` other than 0 is bound to a
copter NTUN handler built from that entry; every other binding is left as it was, among
them that of any type id whose deferred entry has `type` 0. -/
theorem maybe_install_copter (E : Externals) (s : LogReader)
    (hflag : s.installed_vehicle_specific_parsers = false)
    (hv : s.vehicle = VehicleType.VEHICLE_COPTER) :
    (∀ t, t < E.LOGREADER_MAX_FORMATS → (s.deferred_formats t).type ≠ 0 →
      ∃ a, (maybe_install_vehicle_specific_parsers E s).msgparser t =
        some ⟨HandlerClass.NTUN_Copter, s.deferred_formats t, a⟩) ∧
    (∀ t, E.LOGREADER_MAX_FORMATS ≤ t ∨ (s.deferred_formats t).type = 0 →
      (maybe_install_vehicle_specific_parsers E s).msgparser t = s.msgparser t) := by
  obtain ⟨h1, h2⟩ := foldl_install_copter_at_msgparser (List.range E.LOGREADER_MAX_FORMATS) s
  have hguard : s.installed_vehicle_specific_parsers = false ∧
      s.vehicle ≠ VehicleType.VEHICLE_UNKNOWN := ⟨hflag, by rw [hv]; decide⟩
  have hres : (maybe_install_vehicle_specific_parsers E s).msgparser =
      ((List.range E.LOGREADER_MAX_FORMATS).foldl install_copter_at s).msgparser := by
    unfold maybe_install_vehicle_specific_parsers
    rw [if_pos hguard]
    simp [hv]
  rw [hres]
  refine ⟨fun t ht hne => h1 t (List.mem_range.mpr ht) hne, fun t ht => h2 t ?_⟩
  rcases ht with h | h
  · exact Or.inl (fun hm => by have := List.mem_range.mp hm; omega)
  · exact Or.inr h


set_option maxRecDepth 100000 in
/-- C12, at the failing input: "NTUN" formats are registered and declared under the
type ids 0 and 7, then a "MSG" message makes the vehicle a copter and the installer
runs.  Both type ids have a deferred entry; the installer binds a copter NTUN handler
built from the deferred format to type 7 and binds nothing to type 0, because it reads
a `type` of 0 as "no deferred entry". -/
theorem maybe_install_skips_type_zero :
    (session copter_externals
      [Step.register 0 ⟨0, 9, "NTUN".toList, []⟩, Step.op (Op.format ⟨0, 9, "NTUN".toList, []⟩),
       Step.register 7 ⟨7, 9, "NTUN".toList, []⟩, Step.op (Op.format ⟨7, 9, "NTUN".toList, []⟩),
       Step.register 1 ⟨1, 4, "MSG".toList, []⟩, Step.op (Op.format ⟨1, 4, "MSG".toList, []⟩),
       Step.op (Op.data ⟨1, 4, "MSG".toList, []⟩ [163, 149, 1, 0])]
      (LogReader.init [] 200)).vehicle = VehicleType.VEHICLE_COPTER ∧
    (session copter_externals
      [Step.register 0 ⟨0, 9, "NTUN".toList, []⟩, Step.op (Op.format ⟨0, 9, "NTUN".toList, []⟩),
       Step.register 7 ⟨7, 9, "NTUN".toList, []⟩, Step.op (Op.format ⟨7, 9, "NTUN".toList, []⟩),
       Step.register 1 ⟨1, 4, "MSG".toList, []⟩, Step.op (Op.format ⟨1, 4, "MSG".toList, []⟩),
       Step.op (Op.data ⟨1, 4, "MSG".toList, []⟩ [163, 149, 1, 0])]
      (LogReader.init [] 200)).installed_vehicle_specific_parsers = true ∧
    (session copter_externals
      [Step.register 0 ⟨0, 9, "NTUN".toList, []⟩, Step.op (Op.format ⟨0, 9, "NTUN".toList, []⟩),
       Step.register 7 ⟨7, 9, "NTUN".toList, []⟩, Step.op (Op.format ⟨7, 9, "NTUN".toList, []⟩),
       Step.register 1 ⟨1, 4, "MSG".toList, []⟩, Step.op (Op.format ⟨1, 4, "MSG".toList, []⟩),
       Step.op (Op.data ⟨1, 4, "MSG".toList, []⟩ [163, 149, 1, 0])]
      (LogReader.init [] 200)).deferred_formats 7 = ⟨7, 9, "NTUN".toList, []⟩ ∧
    (session copter_externals
      [Step.register 0 ⟨0, 9, "NTUN".toList, []⟩, Step.op (Op.format ⟨0, 9, "NTUN".toList, []⟩),
       Step.register 7 ⟨7, 9, "NTUN".toList, []⟩, Step.op (Op.format ⟨7, 9, "NTUN".toList, []⟩),
       Step.register 1 ⟨1, 4, "MSG".toList, []⟩, Step.op (Op.format ⟨1, 4, "MSG".toList, []⟩),
       Step.op (Op.data ⟨1, 4, "MSG".toList, []⟩ [163, 149, 1, 0])]
      (LogReader.init [] 200)).msgparser 7 =
        some ⟨HandlerClass.NTUN_Copter, ⟨7, 9, "NTUN".toList, []⟩, 1⟩ ∧
    (session copter_externals
      [Step.register 0 ⟨0, 9, "NTUN".toList, []⟩, Step.op (Op.format ⟨0, 9, "NTUN".toList, []⟩),
       Step.register 7 ⟨7, 9, "NTUN".toList, []⟩, Step.op (Op.format ⟨7, 9, "NTUN".toList, []⟩),
       Step.register 1 ⟨1, 4, "MSG".toList, []⟩, Step.op (Op.format ⟨1, 4, "MSG".toList, []⟩),
       Step.op (Op.data ⟨1, 4, "MSG".toList, []⟩ [163, 149, 1, 0])]
      (LogReader.init [] 200)).deferred_formats 0 = ⟨0, 9, "NTUN".toList, []⟩ ∧
    (session copter_externals
      [Step.register 0 ⟨0, 9, "NTUN".toList, []⟩, Step.op (Op.format ⟨0, 9, "NTUN".toList, []⟩),
       Step.register 7 ⟨7, 9, "NTUN".toList, []⟩, Step.op (Op.format ⟨7, 9, "NTUN".toList, []⟩),
       Step.register 1 ⟨1, 4, "MSG".toList, []⟩, Step.op (Op.format ⟨1, 4, "MSG".toList, []⟩),
       Step.op (Op.data ⟨1, 4, "MSG".toList, []⟩ [163, 149, 1, 0])]
      (LogReader.init [] 200)).msgparser 0 = none := by
  decide

/-! ## C13: vehicles without an NTUN handler -/

/-- C13: for a plane or a rover the installer changes nothing but the flag, which is
true afterwards: every handler binding is as it was.  For an unknown vehicle the
installer changes nothing at all, so the flag, if false, stays false and no handler is
bound for a deferred entry. -/
theorem maybe_install_plane_rover_unknown (E : Externals) (s : LogReader) :
    (s.vehicle = VehicleType.VEHICLE_PLANE ∨ s.vehicle = VehicleType.VEHICLE_ROVER →
      maybe_install_vehicle_specific_parsers E s =
        { s with installed_vehicle_specific_parsers := true } ∧
      (maybe_install_vehicle_specific_parsers E s).msgparser = s.msgparser ∧
      (maybe_install_vehicle_specific_parsers E s).installed_vehicle_specific_parsers =
        true) ∧
    (s.vehicle = VehicleType.VEHICLE_UNKNOWN →
      maybe_install_vehicle_specific_parsers E s = s) := by
  constructor
  · intro hv
    have key : maybe_install_vehicle_specific_parsers E s =
        { s with installed_vehicle_specific_parsers := true } := by
      unfold maybe_install_vehicle_specific_parsers
      by_cases hflag : s.installed_vehicle_specific_parsers = false
      · rcases hv with hv | hv <;> simp [hflag, hv]
      · have ht : s.installed_vehicle_specific_parsers = true := by
          cases hb : s.installed_vehicle_specific_parsers
          · exact absurd hb hflag
          · rfl
        have hs : { s with installed_vehicle_specific_parsers := true } = s := by
          cases s
          simp only [LogReader.mk.injEq, and_true, true_and]
          exact ht.symm
        rw [hs]
        simp [ht]
    rw [key]
    exact ⟨rfl, rfl, rfl⟩
  · intro hv
    simp [maybe_install_vehicle_specific_parsers, hv]

/-- C13 for a plane with an "NTUN" format deferred under type 7: no handler is bound
and the flag is set. -/
theorem maybe_install_plane_rover_unknown_witness :
    ({ LogReader.init [] 200 with
        vehicle := VehicleType.VEHICLE_PLANE
        deferred_formats := Function.update (fun _ => log_Format.zero) 7
          ⟨7, 9, "NTUN".toList, []⟩ } : LogReader).vehicle = VehicleType.VEHICLE_PLANE ∧
    (maybe_install_vehicle_specific_parsers copter_externals
      { LogReader.init [] 200 with
        vehicle := VehicleType.VEHICLE_PLANE
        deferred_formats := Function.update (fun _ => log_Format.zero) 7
          ⟨7, 9, "NTUN".toList, []⟩ }).msgparser = (LogReader.init [] 200).msgparser ∧
    (maybe_install_vehicle_specific_parsers copter_externals
      { LogReader.init [] 200 with
        vehicle := VehicleType.VEHICLE_PLANE
        deferred_formats := Function.update (fun _ => log_Format.zero) 7
          ⟨7, 9, "NTUN".toList, []⟩ }).installed_vehicle_specific_parsers = true :=
  ⟨rfl,
   ((maybe_install_plane_rover_unknown copter_externals
      { LogReader.init [] 200 with
        vehicle := VehicleType.VEHICLE_PLANE
        deferred_formats := Function.update (fun _ => log_Format.zero) 7
          ⟨7, 9, "NTUN".toList, []⟩ }).1 (Or.inl rfl)).2⟩


/-! ## C14: an "NTUN" format that comes after the installer has run -/

/-- C14: let an "NTUN" Format record for the type id `t = f.type` be handled in a state
in which the installer has already run (the flag is true).  Then after every number of
further steps of the session the handler bound to `t` is what it was when the record
arrived, as long as no Format record for `t` with a name that has a handler class
follows: no copter NTUN handler is ever bound to `t` for this declaration. -/
theorem late_ntun_never_bound (E : Externals) (f : log_Format) (rest : List Step)
    (s : LogReader) (hflag : s.installed_vehicle_specific_parsers = true)
    (hname : fmt_name f = "NTUN")
    (hrest : ∀ g, Step.op (Op.format g) ∈ rest → g.type = f.type →
      (dispatch (fmt_name g)).binds = false) :
    ∀ n, (session E (Step.op (Op.format f) :: rest.take n) s).msgparser f.type =
      s.msgparser f.type := by
  intro n
  apply session_msgparser_of_flag E f.type _ s hflag
  intro g hg hgt
  rcases List.mem_cons.mp hg with h | h
  · have hgf : g = f := by injection h with h1; injection h1
    rw [hgf, hname]
    decide
  · exact hrest g (List.mem_of_mem_take h) hgt

set_option maxRecDepth 100000 in
/-- C14 in a session from the initial state: an "NTUN" format declared under type 7,
a "MSG" message that makes the vehicle a copter (the installer runs and binds type 7),
then a late "NTUN" format under type 8 and another "MSG" message: type 8 has no
handler. -/
theorem late_ntun_never_bound_witness :
    (session copter_externals
      [Step.register 7 ⟨7, 9, "NTUN".toList, []⟩, Step.op (Op.format ⟨7, 9, "NTUN".toList, []⟩),
       Step.register 1 ⟨1, 4, "MSG".toList, []⟩, Step.op (Op.format ⟨1, 4, "MSG".toList, []⟩),
       Step.op (Op.data ⟨1, 4, "MSG".toList, []⟩ [163, 149, 1, 0])]
      (LogReader.init [] 200)).installed_vehicle_specific_parsers = true ∧
    (session copter_externals
      (Step.op (Op.format ⟨8, 9, "NTUN".toList, []⟩) ::
        [Step.op (Op.data ⟨1, 4, "MSG".toList, []⟩ [163, 149, 1, 0])].take 1)
      (session copter_externals
        [Step.register 7 ⟨7, 9, "NTUN".toList, []⟩,
         Step.op (Op.format ⟨7, 9, "NTUN".toList, []⟩),
         Step.register 1 ⟨1, 4, "MSG".toList, []⟩, Step.op (Op.format ⟨1, 4, "MSG".toList, []⟩),
         Step.op (Op.data ⟨1, 4, "MSG".toList, []⟩ [163, 149, 1, 0])]
        (LogReader.init [] 200))).msgparser 8 = none :=
  ⟨by decide,
   (late_ntun_never_bound copter_externals ⟨8, 9, "NTUN".toList, []⟩
      [Step.op (Op.data ⟨1, 4, "MSG".toList, []⟩ [163, 149, 1, 0])]
      (session copter_externals
        [Step.register 7 ⟨7, 9, "NTUN".toList, []⟩,
         Step.op (Op.format ⟨7, 9, "NTUN".toList, []⟩),
         Step.register 1 ⟨1, 4, "MSG".toList, []⟩, Step.op (Op.format ⟨1, 4, "MSG".toList, []⟩),
         Step.op (Op.data ⟨1, 4, "MSG".toList, []⟩ [163, 149, 1, 0])]
        (LogReader.init [] 200))
      (by decide) (by decide)
      (fun g hg => by simp at hg) 1).trans (by decide)⟩

/-! ## C15: `set_parameter` and the parameter handler -/

/-- C15: (1) without a parameter handler `set_parameter` returns false and only
prints the diagnostic: no handler is called; (2) in every state reached from the
initial state by a session without a "PARM" Format record it returns false, for every
name and value; (3) with a parameter handler it returns what the `set_parameter` of
that handler returns and changes nothing; (4) after a "PARM" Format record there is a
parameter handler, in every later state of the session. -/
theorem set_parameter_result (E : Externals) (name : String) (value : Int) :
    (∀ s : LogReader, s.parameter_handler = none →
      (set_parameter E name value s).1 = false ∧
      (set_parameter E name value s).2 =
        { s with trace := s.trace ++ [Event.printf "No parameter format message found" []] } ∧
      parser_calls (set_parameter E name value s).2.trace = parser_calls s.trace) ∧
    (∀ (cat : List LogStructure) (n0 : Nat) (steps : List Step),
      (∀ f, Step.op (Op.format f) ∈ steps → fmt_name f ≠ "PARM") →
      (set_parameter E name value (session E steps (LogReader.init cat n0))).1 = false) ∧
    (∀ (s : LogReader) (p : LR_MsgHandler), s.parameter_handler = some p →
      set_parameter E name value s = (E.set_parameter p name value, s)) ∧
    (∀ (s : LogReader) (f : log_Format) (steps : List Step), fmt_name f = "PARM" →
      ∃ p, (session E (Step.op (Op.format f) :: steps) s).parameter_handler = some p ∧
        p.cls = HandlerClass.PARM ∧
        (set_parameter E name value (session E (Step.op (Op.format f) :: steps) s)).1 =
          E.set_parameter p name value) := by
  refine ⟨fun s hs => ?_, fun cat n0 steps hsteps => ?_, fun s p hs => ?_,
    fun s f steps hname => ?_⟩
  · simp [set_parameter, hs, parser_calls]
  · have h := session_parameter_handler E steps (LogReader.init cat n0) hsteps
    have hnone : (session E steps (LogReader.init cat n0)).parameter_handler = none := h
    simp [set_parameter, hnone]
  · simp [set_parameter, hs]
  · have hd : dispatch (fmt_name f) = Dispatch.parm := (dispatch_parm_iff _).mpr hname
    have h1 := ((handle_log_format_msg_dispatch f s).1 hd).2.1
    obtain ⟨p, hp, hcls⟩ := session_parameter_handler_some E steps
      (handle_log_format_msg f s).2 ⟨_, h1, rfl⟩
    refine ⟨p, ?_, hcls, ?_⟩
    · simpa [session, Step.apply, Op.apply] using hp
    · have hp2 : (session E (Step.op (Op.format f) :: steps) s).parameter_handler = some p := by
        simpa [session, Step.apply, Op.apply] using hp
      simp [set_parameter, hp2]

/-- C15 at `set_parameter("FOO", 1)`: false in the initial state and after a "GPS"
format; after a "PARM" format the answer of the parameter handler (here true). -/
theorem set_parameter_result_witness :
    (set_parameter copter_externals "FOO" 1 (LogReader.init [] 200)).1 = false ∧
    (set_parameter copter_externals "FOO" 1
      (session copter_externals [Step.op (Op.format ⟨3, 9, "GPS".toList, []⟩)]
        (LogReader.init [] 200))).1 = false ∧
    (set_parameter copter_externals "FOO" 1
      (session copter_externals [Step.op (Op.format ⟨4, 9, "PARM".toList, []⟩)]
        (LogReader.init [] 200))).1 = true :=
  ⟨((set_parameter_result copter_externals "FOO" 1).1 (LogReader.init [] 200) rfl).1,
   (set_parameter_result copter_externals "FOO" 1).2.1 [] 200
     [Step.op (Op.format ⟨3, 9, "GPS".toList, []⟩)] (by
       intro f hf
       simp only [List.mem_singleton, Step.op.injEq, Op.format.injEq] at hf
       rw [hf]
       decide),
   by decide⟩


/-! ## C16: how often a binding is replaced -/

theorem replaced_self (o : Option LR_MsgHandler) : replaced o o = false := by
  simp [replaced]

/-- A step that replaced the binding of `t` is a Format record for `t` whose name has a
handler class, a Data record or a call of the installer. -/
theorem replacing_step_kind (E : Externals) (t : Nat) (st : Step) (s s1 : LogReader)
    (h : Step.apply E st s = Except.ok s1)
    (hr : replaced (s.msgparser t) (s1.msgparser t) = true) :
    (∃ f, st = Step.op (Op.format f) ∧ f.type = t ∧ (dispatch (fmt_name f)).binds = true) ∨
    (st.is_format = false ∧ s.installed_vehicle_specific_parsers = false ∧
      s1.installed_vehicle_specific_parsers = true ∧
      ((∃ f m, st = Step.op (Op.data f m)) ∨ st = Step.op Op.install)) := by
  cases st with
  | register i g =>
    cases h
    simp [replaced_self] at hr
  | op o =>
    cases o with
    | map name intype =>
      cases h
      rw [(map_fmt_type_others name intype s).1, replaced_self] at hr
      cases hr
    | format f =>
      cases h
      left
      refine ⟨f, rfl, ?_⟩
      by_contra hcon
      have hcase : f.type ≠ t ∨ (dispatch (fmt_name f)).binds = false := by
        by_cases ht : f.type = t
        · right
          cases hb : (dispatch (fmt_name f)).binds
          · rfl
          · exact absurd ⟨ht, hb⟩ hcon
        · exact Or.inl ht
      rw [handle_log_format_msg_msgparser f t s hcase, replaced_self] at hr
      cases hr
    | data f m =>
      right
      rcases (Step.apply_not_format E (Step.op (Op.data f m)) s s1 rfl h).2.2 with hc | hc
      · rw [hc.1, replaced_self] at hr
        cases hr
      · exact ⟨rfl, hc.1, hc.2, Or.inl ⟨f, m, rfl⟩⟩
    | install =>
      right
      rcases (Step.apply_not_format E (Step.op Op.install) s s1 rfl h).2.2 with hc | hc
      · rw [hc.1, replaced_self] at hr
        cases hr
      · exact ⟨rfl, hc.1, hc.2, Or.inr rfl⟩

/-- Once the flag is true, only Format records replace a binding. -/
theorem replacing_steps_of_flag (E : Externals) (t : Nat) (steps : List Step) :
    ∀ s : LogReader, s.installed_vehicle_specific_parsers = true →
      ∀ st ∈ replacing_steps E t steps s, st.is_format = true := by
  induction steps with
  | nil => intro s _ st hst; simp [replacing_steps] at hst
  | cons st0 rest ih =>
    intro s hflag st hst
    simp only [replacing_steps] at hst
    cases hap : Step.apply E st0 s with
    | error h => rw [hap] at hst; simp at hst
    | ok s1 =>
      rw [hap] at hst
      simp only [List.mem_append] at hst
      rcases hst with hst | hst
      · by_cases hr : replaced (s.msgparser t) (s1.msgparser t) = true
        · simp only [hr, if_true, List.mem_singleton] at hst
          subst hst
          rcases replacing_step_kind E t st s s1 hap hr with ⟨f, hf, _⟩ | ⟨_, hfalse, _⟩
          · rw [hf]; rfl
          · rw [hflag] at hfalse; cases hfalse
        · simp [hr] at hst
      · exact ih s1 (Step.apply_flag E st0 s s1 hflag hap) st hst

/-- Over a session, at most one step that is not a Format record replaces the binding
of `t`. -/
theorem replacing_steps_not_format (E : Externals) (t : Nat) (steps : List Step) :
    ∀ s : LogReader,
      ((replacing_steps E t steps s).filter (fun st => !st.is_format)).length ≤ 1 := by
  induction steps with
  | nil => intro s; simp [replacing_steps]
  | cons st0 rest ih =>
    intro s
    simp only [replacing_steps]
    cases hap : Step.apply E st0 s with
    | error h => simp
    | ok s1 =>
      simp only [List.filter_append, List.length_append]
      by_cases hr : replaced (s.msgparser t) (s1.msgparser t) = true
      · rcases replacing_step_kind E t st0 s s1 hap hr with ⟨f, hf, _⟩ | ⟨_, _, hflag1, _⟩
        · have h0 : st0.is_format = true := by rw [hf]; rfl
          have := ih s1
          simp only [hr, if_true, List.filter_cons, h0, Bool.not_true, List.filter_nil]
          simpa using this
        · have hall := replacing_steps_of_flag E t rest s1 hflag1
          have hnil : (replacing_steps E t rest s1).filter (fun st => !st.is_format) = [] := by
            apply List.filter_eq_nil_iff.mpr
            intro st hst
            simp [hall st hst]
          rw [hnil]
          simp only [hr, if_true, List.length_nil, Nat.add_zero]
          exact (List.length_filter_le _ _).trans (by simp)
      · have := ih s1
        simp only [hr, List.filter_nil, List.length_nil, Nat.zero_add]
        simpa using this

/-- Every step that replaces the binding of `t` is a Format record for `t` whose name
has a handler class, a Data record or a call of the installer. -/
theorem replacing_steps_kind (E : Externals) (t : Nat) (steps : List Step) :
    ∀ s : LogReader, ∀ st ∈ replacing_steps E t steps s,
      (∃ f, st = Step.op (Op.format f) ∧ f.type = t ∧
        (dispatch (fmt_name f)).binds = true) ∨
      (∃ f m, st = Step.op (Op.data f m)) ∨ st = Step.op Op.install := by
  induction steps with
  | nil => intro s st hst; simp [replacing_steps] at hst
  | cons st0 rest ih =>
    intro s st hst
    simp only [replacing_steps] at hst
    cases hap : Step.apply E st0 s with
    | error h => rw [hap] at hst; simp at hst
    | ok s1 =>
      rw [hap] at hst
      simp only [List.mem_append] at hst
      rcases hst with hst | hst
      · by_cases hr : replaced (s.msgparser t) (s1.msgparser t) = true
        · simp only [hr, if_true, List.mem_singleton] at hst
          subst hst
          rcases replacing_step_kind E t st s s1 hap hr with h | ⟨_, _, _, h⟩
          · exact Or.inl h
          · exact Or.inr h
        · simp [hr] at hst
      · exact ih s1 st hst


/-- The steps that replaced a binding are steps of the session. -/
theorem replacing_steps_subset (E : Externals) (t : Nat) (steps : List Step) :
    ∀ s : LogReader, ∀ st ∈ replacing_steps E t steps s, st ∈ steps := by
  induction steps with
  | nil => intro s st hst; simp [replacing_steps] at hst
  | cons st0 rest ih =>
    intro s st hst
    simp only [replacing_steps] at hst
    cases hap : Step.apply E st0 s with
    | error h => rw [hap] at hst; simp at hst
    | ok s1 =>
      rw [hap] at hst
      simp only [List.mem_append] at hst
      rcases hst with hst | hst
      · by_cases hr : replaced (s.msgparser t) (s1.msgparser t) = true
        · simp only [hr, if_true, List.mem_singleton] at hst
          rw [hst]; exact List.mem_cons_self _ _
        · simp [hr] at hst
      · exact List.mem_cons_of_mem _ (ih s1 st hst)

set_option maxRecDepth 100000 in
/-- C16 as stated fails: a "GPS" format registered and declared under type 3, declared
again, and followed by an "IMU" format under type 3.  Each declaration binds a new
handler instance to type 3; the second and the third replace an existing binding, so
the binding of type 3 is replaced twice, both times by `handle_log_format_msg`. -/
theorem format_replaces_binding :
    (session copter_externals
      [Step.register 3 ⟨3, 9, "GPS".toList, []⟩, Step.op (Op.format ⟨3, 9, "GPS".toList, []⟩)]
      (LogReader.init [] 200)).msgparser 3 =
        some ⟨HandlerClass.GPS, ⟨3, 9, "GPS".toList, []⟩, 0⟩ ∧
    (session copter_externals
      [Step.register 3 ⟨3, 9, "GPS".toList, []⟩, Step.op (Op.format ⟨3, 9, "GPS".toList, []⟩),
       Step.op (Op.format ⟨3, 9, "GPS".toList, []⟩)]
      (LogReader.init [] 200)).msgparser 3 =
        some ⟨HandlerClass.GPS, ⟨3, 9, "GPS".toList, []⟩, 1⟩ ∧
    (session copter_externals
      [Step.register 3 ⟨3, 9, "GPS".toList, []⟩, Step.op (Op.format ⟨3, 9, "GPS".toList, []⟩),
       Step.op (Op.format ⟨3, 9, "GPS".toList, []⟩),
       Step.register 3 ⟨3, 8, "IMU".toList, []⟩, Step.op (Op.format ⟨3, 8, "IMU".toList, []⟩)]
      (LogReader.init [] 200)).msgparser 3 =
        some ⟨HandlerClass.IMU, ⟨3, 8, "IMU".toList, []⟩, 2⟩ ∧
    (replacing_steps copter_externals 3
      [Step.register 3 ⟨3, 9, "GPS".toList, []⟩, Step.op (Op.format ⟨3, 9, "GPS".toList, []⟩),
       Step.op (Op.format ⟨3, 9, "GPS".toList, []⟩),
       Step.register 3 ⟨3, 8, "IMU".toList, []⟩, Step.op (Op.format ⟨3, 8, "IMU".toList, []⟩)]
      (LogReader.init [] 200)).length = 2 ∧
    (replacing_steps copter_externals 3
      [Step.register 3 ⟨3, 9, "GPS".toList, []⟩, Step.op (Op.format ⟨3, 9, "GPS".toList, []⟩),
       Step.op (Op.format ⟨3, 9, "GPS".toList, []⟩),
       Step.register 3 ⟨3, 8, "IMU".toList, []⟩, Step.op (Op.format ⟨3, 8, "IMU".toList, []⟩)]
      (LogReader.init [] 200)).all Step.is_format = true := by
  decide

/-- C16, amended: in every session, (1) at most one step that is not a Format record
replaces the handler bound to a type id `t` by a different instance, and such a step is
a run of the installer, called directly or at the end of `handle_msg`; (2) every other
replacement is by a Format record for `t` whose name has a handler class; (3) handling
such a record binds a new handler instance to its type id, whether or not the type id
has a binding; (4) so in a session without a Format record for `t` whose name has a
handler class, the binding of `t` is replaced at most once, and only by the installer. -/
theorem binding_replacements (E : Externals) (t : Nat) (steps : List Step)
    (s : LogReader) :
    ((replacing_steps E t steps s).filter (fun st => !st.is_format)).length ≤ 1 ∧
    (∀ st ∈ replacing_steps E t steps s,
      (∃ f, st = Step.op (Op.format f) ∧ f.type = t ∧
        (dispatch (fmt_name f)).binds = true) ∨
      (∃ f m, st = Step.op (Op.data f m)) ∨ st = Step.op Op.install) ∧
    (∀ (f : log_Format) (s0 : LogReader), (dispatch (fmt_name f)).binds = true →
      ∃ cls, (handle_log_format_msg f s0).2.msgparser =
        Function.update s0.msgparser f.type (some ⟨cls, s0.formats f.type, s0.heap⟩)) ∧
    ((∀ f, Step.op (Op.format f) ∈ steps → f.type = t →
        (dispatch (fmt_name f)).binds = false) →
      (replacing_steps E t steps s).length ≤ 1 ∧
      ∀ st ∈ replacing_steps E t steps s,
        (∃ f m, st = Step.op (Op.data f m)) ∨ st = Step.op Op.install) := by
  have hkind := replacing_steps_kind E t steps s
  have hcount := replacing_steps_not_format E t steps s
  refine ⟨hcount, hkind, fun f s0 hb => ?_, fun hno => ?_⟩
  · obtain ⟨hp, hc, _, _⟩ := handle_log_format_msg_dispatch f s0
    cases hdis : dispatch (fmt_name f) with
    | parm => exact ⟨_, (hp hdis).1⟩
    | parser cls => exact ⟨cls, (hc cls hdis).1⟩
    | deferred => simp [hdis, Dispatch.binds] at hb
    | unhandled => simp [hdis, Dispatch.binds] at hb
  · have hnf : ∀ st ∈ replacing_steps E t steps s,
        (∃ f m, st = Step.op (Op.data f m)) ∨ st = Step.op Op.install := by
      intro st hst
      rcases hkind st hst with ⟨f, hf, hft, hb⟩ | h
      · have := hno f (hf ▸ replacing_steps_subset E t steps s st hst) hft
        rw [this] at hb
        cases hb
      · exact h
    refine ⟨?_, hnf⟩
    have hfil : (replacing_steps E t steps s).filter (fun st => !st.is_format) =
        replacing_steps E t steps s := by
      apply List.filter_eq_self.mpr
      intro st hst
      rcases hnf st hst with ⟨f, m, h⟩ | h <;> rw [h] <;> rfl
    rw [hfil] at hcount
    exact hcount


set_option maxRecDepth 100000 in
/-- C16 amended, in a state where type 7 is bound to a GPS handler: an "NTUN" format
is then registered and declared under type 7 and a "MSG" message makes the vehicle a
copter.  No Format record of these steps binds type 7; the installer, at the end of
`handle_msg`, replaces the GPS handler by a copter NTUN handler, once. -/
theorem binding_replacements_witness :
    (replacing_steps copter_externals 7
      [Step.register 7 ⟨7, 9, "NTUN".toList, []⟩, Step.op (Op.format ⟨7, 9, "NTUN".toList, []⟩),
       Step.register 1 ⟨1, 4, "MSG".toList, []⟩, Step.op (Op.format ⟨1, 4, "MSG".toList, []⟩),
       Step.op (Op.data ⟨1, 4, "MSG".toList, []⟩ [163, 149, 1, 0]),
       Step.op (Op.data ⟨1, 4, "MSG".toList, []⟩ [163, 149, 1, 0])]
      (session copter_externals
        [Step.register 7 ⟨7, 9, "GPS".toList, []⟩, Step.op (Op.format ⟨7, 9, "GPS".toList, []⟩)]
        (LogReader.init [] 200))).length ≤ 1 ∧
    (replacing_steps copter_externals 7
      [Step.register 7 ⟨7, 9, "NTUN".toList, []⟩, Step.op (Op.format ⟨7, 9, "NTUN".toList, []⟩),
       Step.register 1 ⟨1, 4, "MSG".toList, []⟩, Step.op (Op.format ⟨1, 4, "MSG".toList, []⟩),
       Step.op (Op.data ⟨1, 4, "MSG".toList, []⟩ [163, 149, 1, 0]),
       Step.op (Op.data ⟨1, 4, "MSG".toList, []⟩ [163, 149, 1, 0])]
      (session copter_externals
        [Step.register 7 ⟨7, 9, "GPS".toList, []⟩, Step.op (Op.format ⟨7, 9, "GPS".toList, []⟩)]
        (LogReader.init [] 200))).length = 1 :=
  ⟨((binding_replacements copter_externals 7
      [Step.register 7 ⟨7, 9, "NTUN".toList, []⟩, Step.op (Op.format ⟨7, 9, "NTUN".toList, []⟩),
       Step.register 1 ⟨1, 4, "MSG".toList, []⟩, Step.op (Op.format ⟨1, 4, "MSG".toList, []⟩),
       Step.op (Op.data ⟨1, 4, "MSG".toList, []⟩ [163, 149, 1, 0]),
       Step.op (Op.data ⟨1, 4, "MSG".toList, []⟩ [163, 149, 1, 0])]
      (session copter_externals
        [Step.register 7 ⟨7, 9, "GPS".toList, []⟩, Step.op (Op.format ⟨7, 9, "GPS".toList, []⟩)]
        (LogReader.init [] 200))).2.2.2
      (by
        intro f hf ht
        simp only [List.mem_cons, Step.op.injEq, Op.format.injEq, List.mem_singleton,
          List.not_mem_nil, or_false, false_or, reduceCtorEq] at hf
        rcases hf with hf | hf
        · rw [hf]; decide
        · rw [hf] at ht; exact absurd ht (by decide))).1,
   by decide⟩

/-! ## C17: the order of the effects of `handle_msg` -/

/-- What the handler step of `handle_msg` adds to the trace: the call of the handler
bound to `f.type`, if there is one. -/
theorem process_msg_trace (E : Externals) (f : log_Format) (msg : List Nat) (s : LogReader) :
    (process_msg E f msg s).trace = s.trace ++
      (match s.msgparser f.type with
        | none => []
        | some p => [Event.process_message p msg]) := by
  unfold process_msg
  cases hp : s.msgparser f.type with
  | none => simp
  | some p =>
    simp only []
    rw [(maybe_install_frame E _).1]

/-- C17: for a Data record whose name is not generated and whose type byte `msg[2]` has
a mapping, `handle_msg` returns true with the buffer in which byte 2 is replaced by
the mapped id and every other byte is as it was, and what it does is, in this order:
one `WriteBlock` of the first `f.length` bytes of the rewritten buffer, one
`stop_clock`, and then the call of the handler bound to `f.type`, if there is one, on
the rewritten buffer. -/
theorem handle_msg_order (E : Externals) (f : log_Format) (msg : List Nat) (s : LogReader)
    (hname : fmt_name f ∉ generated_names)
    (hmap : s.mapped_msgid (msg_type_byte msg) ≠ 0) :
    ∃ s1, handle_msg E f msg s =
        Except.ok (true, msg.set 2 (s.mapped_msgid (msg_type_byte msg)), s1) ∧
      s1.trace = s.trace ++
        [Event.WriteBlock
            (Block.raw ((msg.set 2 (s.mapped_msgid (msg_type_byte msg))).take f.length)),
          Event.stop_clock s.last_timestamp_usec] ++
        (match s.msgparser f.type with
          | none => []
          | some p =>
            [Event.process_message p (msg.set 2 (s.mapped_msgid (msg_type_byte msg)))]) ∧
      (msg.set 2 (s.mapped_msgid (msg_type_byte msg))).length = msg.length ∧
      (∀ i, i ≠ 2 → (msg.set 2 (s.mapped_msgid (msg_type_byte msg)))[i]? = msg[i]?) ∧
      (2 < msg.length → (msg.set 2 (s.mapped_msgid (msg_type_byte msg)))[2]? =
        some (s.mapped_msgid (msg_type_byte msg))) := by
  have hin := (in_list_false_iff _ _).mpr hname
  have hfw : forward_msg f msg s = Except.ok
      (msg.set 2 (s.mapped_msgid (msg_type_byte msg)),
        { s with
          trace := s.trace ++
            [Event.WriteBlock
                (Block.raw ((msg.set 2 (s.mapped_msgid (msg_type_byte msg))).take f.length)),
             Event.stop_clock s.last_timestamp_usec] }) := by
    simp [forward_msg, hin, hmap]
  refine ⟨process_msg E f (msg.set 2 (s.mapped_msgid (msg_type_byte msg)))
      { s with
        trace := s.trace ++
          [Event.WriteBlock
              (Block.raw ((msg.set 2 (s.mapped_msgid (msg_type_byte msg))).take f.length)),
           Event.stop_clock s.last_timestamp_usec] }, ?_, ?_, ?_, ?_, ?_⟩
  · simp only [handle_msg, hfw]
  · rw [process_msg_trace]
  · simp
  · intro i hi
    rw [List.getElem?_set_ne (fun h => hi h.symm)]
  · intro hlen
    simp [List.getElem?_set, hlen]

/-- C17 at an "IMU" message of type 3, mapped to 200 and bound to an IMU handler. -/
theorem handle_msg_order_witness :
    fmt_name ⟨3, 4, "IMU".toList, []⟩ ∉ generated_names ∧
    ∃ s1, handle_msg copter_externals ⟨3, 4, "IMU".toList, []⟩ [163, 149, 3, 9, 9]
        (handle_log_format_msg ⟨3, 4, "IMU".toList, []⟩ (LogReader.init [] 200)).2 =
          Except.ok (true, [163, 149, 200, 9, 9], s1) ∧
      s1.trace = [Event.WriteBlock (Block.format ⟨200, 4, "IMU".toList, []⟩),
        Event.WriteBlock (Block.raw [163, 149, 200, 9]), Event.stop_clock 0,
        Event.process_message ⟨HandlerClass.IMU, log_Format.zero, 0⟩ [163, 149, 200, 9, 9]] :=
  ⟨by decide,
   (handle_msg_order copter_externals ⟨3, 4, "IMU".toList, []⟩ [163, 149, 3, 9, 9]
      (handle_log_format_msg ⟨3, 4, "IMU".toList, []⟩ (LogReader.init [] 200)).2
      (by decide) (by decide)).imp (fun _ h => ⟨h.1, h.2.1⟩)⟩


/-! ## C18: which handler `handle_msg` runs -/

/-- C18: when `handle_msg` returns, for a generated name or not, it returns true; the
handler calls it made are exactly one call of the handler that was bound to `f.type`,
on the buffer it returns, or none if no handler was bound to `f.type`; and in that case
the handler table, the flag and the deferred table are as they were. -/
theorem handle_msg_runs_bound_handler (E : Externals) (f : log_Format) (msg : List Nat)
    (s : LogReader) (r : Bool × List Nat × LogReader)
    (h : handle_msg E f msg s = Except.ok r) :
    r.1 = true ∧
    parser_calls r.2.2.trace = parser_calls s.trace ++
      (match s.msgparser f.type with
        | none => []
        | some p => [(p, r.2.1)]) ∧
    (s.msgparser f.type = none →
      r.2.2.msgparser = s.msgparser ∧
      r.2.2.installed_vehicle_specific_parsers = s.installed_vehicle_specific_parsers ∧
      r.2.2.deferred_formats = s.deferred_formats) := by
  unfold handle_msg at h
  cases hfw : forward_msg f msg s with
  | error h0 => rw [hfw] at h; cases h
  | ok r0 =>
    rw [hfw] at h
    cases h
    obtain ⟨h1, h2, _, h4, _⟩ := forward_msg_others f msg s r0 hfw
    have htr : parser_calls r0.2.trace = parser_calls s.trace := by
      unfold forward_msg at hfw
      split at hfw
      · split at hfw
        · cases hfw
        · cases hfw; simp [parser_calls]
      · cases hfw; rfl
    refine ⟨rfl, ?_, fun hnone => ?_⟩
    · simp only [process_msg_trace, h1]
      cases hp : s.msgparser f.type with
      | none => simp [htr]
      | some p => simp [parser_calls, List.filterMap_append] at htr ⊢; exact htr
    · have hp : r0.2.msgparser f.type = none := by rw [h1]; exact hnone
      simp only [process_msg, hp]
      exact ⟨h1, h4, h2⟩

/-- C18 at an "IMU" message of type 3, whose type byte is rewritten to 200: the
handler run is the one bound to type 3, although type 200 has a handler of its own. -/
theorem handle_msg_runs_bound_handler_witness :
    ∃ s1, handle_msg copter_externals ⟨3, 4, "IMU".toList, []⟩ [163, 149, 3, 9]
        (handle_log_format_msg ⟨200, 4, "BARO".toList, []⟩
          (handle_log_format_msg ⟨3, 4, "IMU".toList, []⟩ (LogReader.init [] 200)).2).2 =
          Except.ok (true, [163, 149, 200, 9], s1) ∧
      parser_calls s1.trace =
        [(⟨HandlerClass.IMU, log_Format.zero, 0⟩, [163, 149, 200, 9])] :=
  ⟨_, rfl,
   (handle_msg_runs_bound_handler copter_externals ⟨3, 4, "IMU".toList, []⟩ [163, 149, 3, 9]
      (handle_log_format_msg ⟨200, 4, "BARO".toList, []⟩
        (handle_log_format_msg ⟨3, 4, "IMU".toList, []⟩ (LogReader.init [] 200)).2).2
      _ rfl).2.1⟩

/-! ## C19: names without a handler -/

/-- C19: for a Format record whose name is none of the names the dispatch compares
with ("PARM", "GPS", "GPS2", "MSG", "IMU", "IMU2", "IMU3", "IMT", "IMT2", "IMT3",
"SIM", "BARO", "ARM", "EV", "AHR2", "ATT", "MAG", "MAG2", "ARSP", "FRAM", "CHEK") and
is not "NTUN", `handle_log_format_msg` returns true and leaves the handler table, the
deferred table and the parameter handler as they were. -/
theorem unknown_name_no_handler (f : log_Format) (s : LogReader)
    (h1 : fmt_name f ∉ handled_names) (h2 : fmt_name f ≠ "NTUN") :
    (handle_log_format_msg f s).1 = true ∧
    (handle_log_format_msg f s).2.msgparser = s.msgparser ∧
    (handle_log_format_msg f s).2.deferred_formats = s.deferred_formats ∧
    (handle_log_format_msg f s).2.parameter_handler = s.parameter_handler := by
  have hd : dispatch (fmt_name f) = Dispatch.unhandled := by
    simp only [handled_names, List.mem_cons, List.mem_singleton, List.not_mem_nil,
      or_false, not_or] at h1
    obtain ⟨a1, a2, a3, a4, a5, a6, a7, a8, a9, a10, a11, a12, a13, a14, a15, a16, a17,
      a18, a19, a20, a21⟩ := h1
    simp only [dispatch, a1, a2, a3, a4, a5, a6, a7, a8, a9, a10, a11, a12, a13, a14, a15,
      a16, a17, a18, a19, a20, a21, h2, if_false]
  obtain ⟨h3, h4, h5⟩ := (handle_log_format_msg_dispatch f s).2.2.2 hd
  exact ⟨rfl, h3, h5, h4⟩

/-- C19 at a "CTUN" record of type 4. -/
theorem unknown_name_no_handler_witness :
    fmt_name ⟨4, 9, "CTUN".toList, []⟩ ∉ handled_names ∧
    (handle_log_format_msg ⟨4, 9, "CTUN".toList, []⟩ (LogReader.init [] 200)).2.msgparser =
      (LogReader.init [] 200).msgparser :=
  ⟨by decide,
   (unknown_name_no_handler ⟨4, 9, "CTUN".toList, []⟩ (LogReader.init [] 200)
      (by decide) (by decide)).2.1⟩


/-! ## C20: a declared type and the fatal exit -/

/-- Declaring a name that is neither generated nor in the structure list under the `m`
fresh type ids `j, j+1, ..., j+m-1` advances the counter by `m` (as an 8-bit value) and
leaves the ids from `j+m` on unmapped. -/
theorem format_session_fresh (f0 : log_Format) (hgen : fmt_name f0 ∉ generated_names)
    (m : Nat) :
    ∀ (j : Nat) (s : LogReader), find_structure (fmt_name f0) s.structure_ = none →
      (∀ k, j ≤ k → s.mapped_msgid k = 0) →
      (format_session ((List.range' j m).map (fun k => { f0 with type := k })) s).next_msgid
          % 256 = (s.next_msgid + m) % 256 ∧
      (s.next_msgid < 256 →
        (format_session ((List.range' j m).map
          (fun k => { f0 with type := k })) s).next_msgid < 256) ∧
      (∀ k, j + m ≤ k →
        (format_session ((List.range' j m).map
          (fun k => { f0 with type := k })) s).mapped_msgid k = 0) ∧
      (format_session ((List.range' j m).map (fun k => { f0 with type := k })) s).structure_ =
        s.structure_ := by
  induction m with
  | zero =>
    intro j s _ hun
    exact ⟨rfl, fun h => h, fun k hk => hun k (by omega), rfl⟩
  | succ m ih =>
    intro j s hfind hun
    have hz : s.mapped_msgid j = 0 := hun j (le_refl _)
    have hmap : map_fmt_type (fmt_name f0) j s =
        (s.next_msgid,
          { s with
            mapped_msgid := Function.update s.mapped_msgid j s.next_msgid
            next_msgid := (s.next_msgid + 1) % 256 }) := by
      simp [map_fmt_type, hz, hfind]
    obtain ⟨r1, r2, r3, _⟩ := handle_log_format_msg_remap { f0 with type := j } s hgen
    have hname : fmt_name { f0 with type := j } = fmt_name f0 := rfl
    rw [hname] at r1 r2 r3
    simp only [hmap] at r1 r2 r3
    simp only [List.range'_succ, List.map_cons, format_session]
    obtain ⟨h1, h2, h3, h4⟩ := ih (j + 1) (handle_log_format_msg { f0 with type := j } s).2
      (by rw [r1]; exact hfind)
      (fun k hk => by
        rw [r3, Function.update_noteq (by omega)]
        exact hun k (by omega))
    rw [r2] at h1 h2
    refine ⟨?_, fun _ => h2 (Nat.mod_lt _ (by omega)), fun k hk => h3 k (by omega),
      h4.trans r1⟩
    rw [h1]
    omega

/-- The function `handle_msg` exits on a name that is not generated when the type
byte has no mapping. -/
theorem handle_msg_exit_of (E : Externals) (f : log_Format) (msg : List Nat)
    (s : LogReader) (hname : fmt_name f ∉ generated_names)
    (hz : s.mapped_msgid (msg_type_byte msg) = 0) :
    handle_msg E f msg s = Except.error
      { status := 1
        msg := msg
        s := { s with
          trace := s.trace ++ [Event.printf "Unknown msgid %u\n" [msg_type_byte msg]] } } := by
  have hin := (in_list_false_iff _ _).mpr hname
  simp [handle_msg, forward_msg, hin, hz]

/-- The exit after a declaration is reached in a session, whatever value below 256 the
counter starts at: after Format records of a name that is neither generated nor in the
structure list, under fresh type ids, the counter stands at 0; a further Format record
of that name under a fresh type id `t` then records the id 0, and `handle_msg` exits on
every message of that format whose type byte is `t`. -/
theorem declared_type_exit_reachable (E : Externals) (cat : List LogStructure) (n0 : Nat)
    (f0 : log_Format) (hn0 : n0 < 256) (hgen : fmt_name f0 ∉ generated_names)
    (hcat : find_structure (fmt_name f0) cat = none) :
    ∃ (fs : List log_Format) (t : Nat), t < 256 ∧ (∀ g ∈ fs, g.type < 256) ∧
      ∀ msg, msg_type_byte msg = t →
        ∃ h, handle_msg E { f0 with type := t } msg
          (handle_log_format_msg { f0 with type := t }
            (format_session fs (LogReader.init cat n0))).2 = Except.error h := by
  obtain ⟨h1, h2, h3, h4⟩ := format_session_fresh f0 hgen ((256 - n0) % 256) 0
    (LogReader.init cat n0) hcat (fun _ _ => rfl)
  have hnext : (format_session ((List.range' 0 ((256 - n0) % 256)).map
      (fun k => { f0 with type := k })) (LogReader.init cat n0)).next_msgid = 0 := by
    have hlt := h2 hn0
    have hmod : (LogReader.init cat n0).next_msgid = n0 := rfl
    rw [hmod] at h1
    omega
  have hun := h3 ((256 - n0) % 256) (by omega)
  have hfind : find_structure (fmt_name f0)
      (format_session ((List.range' 0 ((256 - n0) % 256)).map
        (fun k => { f0 with type := k })) (LogReader.init cat n0)).structure_ = none := by
    rw [h4]; exact hcat
  refine ⟨(List.range' 0 ((256 - n0) % 256)).map (fun k => { f0 with type := k }),
    (256 - n0) % 256, Nat.mod_lt _ (by omega), ?_, ?_⟩
  · intro g hg
    obtain ⟨k, hk, hkg⟩ := List.mem_map.mp hg
    rw [← hkg]
    have := (List.mem_range'_1.mp hk).2
    show k < 256
    omega
  · intro msg hmsg
    obtain ⟨_, _, r3, _⟩ := handle_log_format_msg_remap { f0 with type := (256 - n0) % 256 }
      (format_session ((List.range' 0 ((256 - n0) % 256)).map
        (fun k => { f0 with type := k })) (LogReader.init cat n0)) hgen
    have hname : fmt_name { f0 with type := (256 - n0) % 256 } = fmt_name f0 := rfl
    rw [hname] at r3
    have hzero : (handle_log_format_msg { f0 with type := (256 - n0) % 256 }
        (format_session ((List.range' 0 ((256 - n0) % 256)).map
          (fun k => { f0 with type := k })) (LogReader.init cat n0))).2.mapped_msgid
        (msg_type_byte msg) = 0 := by
      rw [r3, hmsg]
      simp [map_fmt_type, hun, hfind, hnext]
    exact ⟨_, handle_msg_exit_of E _ msg _ hgen hzero⟩

/-- After a Format record of a name that is not generated, `handle_msg` on a message of
that format with type byte `f.type` returns whenever the id recorded for `f.type` is
not 0. -/
theorem declared_type_returns (E : Externals) (f : log_Format) (msg : List Nat)
    (s : LogReader) (hbyte : msg_type_byte msg = f.type)
    (hrec : (handle_log_format_msg f s).2.mapped_msgid f.type ≠ 0) :
    ∃ r, handle_msg E f msg (handle_log_format_msg f s).2 = Except.ok r := by
  cases hm : handle_msg E f msg (handle_log_format_msg f s).2 with
  | ok r => exact ⟨r, rfl⟩
  | error h =>
    exfalso
    unfold handle_msg at hm
    cases hfw : forward_msg f msg (handle_log_format_msg f s).2 with
    | ok r0 => rw [hfw] at hm; cases hm
    | error h0 =>
      unfold forward_msg at hfw
      split at hfw
      · split at hfw
        · rename_i hz
          rw [hbyte] at hz
          exact hrec hz
        · cases hfw
      · cases hfw

/-- C20, at the failing input: in the state after an "IMU" Format record of type 2
from the initial state with the counter at 255 (the counter has wrapped to 0), a "GPS"
Format record of type 3 is handled: the id recorded for type 3 is 0, and `handle_msg` on
a "GPS" message with type byte 3 exits with status 1. -/
theorem declared_type_still_exits :
    fmt_name ⟨3, 4, "GPS".toList, []⟩ ∉ generated_names ∧
    (format_session [⟨2, 4, "IMU".toList, []⟩] (LogReader.init [] 255)).next_msgid = 0 ∧
    (handle_log_format_msg ⟨3, 4, "GPS".toList, []⟩
      (format_session [⟨2, 4, "IMU".toList, []⟩] (LogReader.init [] 255))).2.mapped_msgid 3 = 0 ∧
    ∃ h, handle_msg copter_externals ⟨3, 4, "GPS".toList, []⟩ [163, 149, 3, 0]
        (handle_log_format_msg ⟨3, 4, "GPS".toList, []⟩
          (format_session [⟨2, 4, "IMU".toList, []⟩] (LogReader.init [] 255))).2 =
          Except.error h ∧ h.status = 1 :=
  ⟨by decide, by decide, by decide, _, rfl, rfl⟩


end Replay
